import Mathlib

/-!
Verification development for the Mines-Web repository.

The definitions below are a shallow embedding of the game-state machine in
src/unnamed/part_000 (the complete variant of src/pixi-blank/src/mines.js).
The embedding models:

- the per-tile flags (revealed, _animating, taped) and the wiggle token
  (modelled as a monotonically increasing epoch, matching the Symbol tokens),
- the game-level state (mines, gameOver, revealedSafe, totalSafe,
  waitingForChoice, selectedTile, bombPositions),
- the deferred scheduling used by the source: setTimeout-delayed flip starts,
  tween completions and the reveal-all cascade are pending events carrying
  their absolute fire time (in milliseconds, as rationals); a step relation
  fires pending events in time order, while user inputs (taps and the host
  confirm calls) may arrive at any time not later than every pending event.

Purely visual effects (hover/wiggle geometry, tints, sounds, the win popup,
and the host callbacks onCardSelected/onChange) do not influence any of the
flags or guards of the machine; they are omitted here and modelled separately
at tile granularity (VTile below) for the hover-safety claim.
-/

namespace Mines

/-- Resolved face of a tile: the source passes the strings "diamond" and
"bomb" to revealTileWithFlip. -/
inductive Face
  | diamond
  | bomb
deriving DecidableEq, Repr

/-- Machine-level view of one tile: the flags read and written by the game
state machine in createTile / revealTileWithFlip / wiggleTile / stopWiggle.
The wiggle token (a fresh Symbol in the source) is modelled as an epoch
counter: setting a fresh token is an increment, and a stale callback compares
its captured epoch against the current one. -/
structure MTile where
  row : Nat
  col : Nat
  revealed : Bool
  animating : Bool
  taped : Bool
  wiggleEpoch : Nat
deriving DecidableEq, Repr

/-- Deferred callbacks of the source, with the tile they were created for:
flipStart is the setTimeout body of revealTileWithFlip, flipComplete the
complete callback of the flip tween, wiggleComplete the complete callback of
the wiggle tween (carrying its captured token epoch), and cascadeCall one
staggered setTimeout body of revealAllTiles. -/
inductive EvKind
  | flipStart (i : Nat) (face : Face) (byPlayer : Bool)
  | flipComplete (i : Nat) (face : Face) (byPlayer : Bool)
  | wiggleComplete (i : Nat) (epoch : Nat)
  | cascadeCall (i : Nat) (face : Face)
deriving DecidableEq, Repr

/-- Pending deferred callback together with its absolute fire time. -/
structure Ev where
  kind : EvKind
  time : ℚ
deriving DecidableEq, Repr

/-- Whole game state of createMinesGame: the module-level mutable variables,
the tiles array (tiles are identified by their index in the array), and the
queue of pending deferred callbacks. winFires and gameOverFires count the
invocations of the onWin and onGameOver collaborator callbacks. -/
structure GameState where
  mines : Nat
  tiles : List MTile
  gameOver : Bool
  revealedSafe : Nat
  totalSafe : Int
  waitingForChoice : Bool
  selectedTile : Option Nat
  bombPositions : List (Nat × Nat)
  pending : List Ev
  now : ℚ
  randUses : Nat
  winFires : Nat
  gameOverFires : Nat
deriving DecidableEq, Repr

/-- Configuration options read by the modelled code paths, with the defaults
of the source noted: grid (5), wiggleSelectionEnabled (true),
wiggleSelectionDuration (900), flipDelayMin (150), flipDelayMax (500),
flipDuration (300), revealAllIntervalDelay (40). The rand field supplies the
Math.floor(Math.random() * (i + 1)) values consumed by the Fisher-Yates
shuffle of revealAllTiles: rand k i is the value drawn at loop index i during
the k-th invocation of the shuffle. -/
structure Config where
  grid : Nat
  wiggleSelectionEnabled : Bool
  wiggleSelectionDuration : ℚ
  flipDelayMin : ℚ
  flipDelayMax : ℚ
  flipDuration : ℚ
  revealAllIntervalDelay : ℚ
  rand : Nat → Nat → Nat

/-- Count of tiles that were never tapped: tiles.filter(t => !t.taped).length. -/
def untapedCount (s : GameState) : Nat :=
  (s.tiles.filter (fun t => !t.taped)).length

/-- Effect of stopWiggle on a tile: a fresh token invalidates the pending
wiggle completion and the animating flag is cleared. -/
def stopWiggleT (t : MTile) : MTile :=
  { t with wiggleEpoch := t.wiggleEpoch + 1, animating := false }

/-- Replace the tile at index i. -/
def setTile (s : GameState) (i : Nat) (t : MTile) : GameState :=
  { s with tiles := s.tiles.set i t }

/-- Swap two positions of a list, as the destructuring assignment
[a[i], a[j]] = [a[j], a[i]] does on a JS array (indices are in range at
every use site, since the shuffle draws j ≤ i < length). -/
def swapList {α : Type} (l : List α) (i j : Nat) : List α :=
  match l[i]?, l[j]? with
  | some a, some b => (l.set i b).set j a
  | _, _ => l

/-- Loop of the Fisher-Yates shuffle in revealAllTiles: for i from
length − 1 down to 1, swap position i with position rand i. (The loop body
also calls stopHover on the swapped-in tile, which only touches the hover
token of the visual layer.) -/
def fyAux {α : Type} (rand : Nat → Nat) : Nat → List α → List α
  | 0, l => l
  | i + 1, l => fyAux rand i (swapList l (i + 1) (rand (i + 1)))

/-- Fisher-Yates shuffle of revealAllTiles. -/
def fisherYates {α : Type} (rand : Nat → Nat) (l : List α) : List α :=
  fyAux rand (l.length - 1) l

/-- Key of a tile as used for the bombPositions set: the row,col pair
(the source uses the template string row + "," + col). -/
def keyAt (s : GameState) (i : Nat) : Nat × Nat :=
  match s.tiles[i]? with
  | some t => (t.row, t.col)
  | none => (0, 0)

/-- Indices of the still-unrevealed tiles, in tile enumeration order:
tiles.filter(t => !t.revealed). -/
def unrevealedIdx (s : GameState) : List Nat :=
  (List.range s.tiles.length).filter
    (fun i => match s.tiles[i]? with
      | some t => !t.revealed
      | none => false)

/-- Unrevealed tiles minus the triggering tile:
unrevealed.filter(t => t !== triggeredBombTile). excl = none models the
call revealAllTiles() of the win branch, where triggeredBombTile is
undefined and the filter keeps every tile. -/
def availableIdx (s : GameState) (excl : Option Nat) : List Nat :=
  match excl with
  | some e => (unrevealedIdx s).filter (fun i => i != e)
  | none => unrevealedIdx s

/-- Shuffled available tiles of the current revealAllTiles invocation. -/
def shuffledIdx (c : Config) (s : GameState) (excl : Option Nat) : List Nat :=
  fisherYates (c.rand s.randUses) (availableIdx s excl)

/-- Tiles designated as additional bombs: available.slice(0, bombsNeeded)
with bombsNeeded = mines − 1 (mines ≥ 1 in every state the source
constructs, both clamps force it, so the natural subtraction is exact). -/
def bombIdx (c : Config) (s : GameState) (excl : Option Nat) : List Nat :=
  (shuffledIdx c s excl).take (s.mines - 1)

/-- Set.add on the bombPositions list: append the key unless present. -/
def insertKey (acc : List (Nat × Nat)) (k : Nat × Nat) : List (Nat × Nat) :=
  if acc.contains k then acc else acc ++ [k]

/-- Value of bombPositions after bombTiles.forEach(t => bombPositions.add(key t)). -/
def newBombKeys (c : Config) (s : GameState) (excl : Option Nat) : List (Nat × Nat) :=
  (bombIdx c s excl).foldl (fun acc i => insertKey acc (keyAt s i)) s.bombPositions

/-- Staggered cascade of revealAllTiles: for each still-unrevealed tile at
enumeration position idx, a setTimeout for revealTileWithFlip at delay
revealAllIntervalDelay * idx; the bomb/diamond face is decided at scheduling
time against the updated bombPositions. -/
def cascadeSched (c : Config) (s : GameState) (excl : Option Nat) : List Ev :=
  (unrevealedIdx s).enum.map (fun p =>
    let face := if (newBombKeys c s excl).contains (keyAt s p.2) then Face.bomb else Face.diamond
    { kind := EvKind.cascadeCall p.2 face, time := s.now + c.revealAllIntervalDelay * p.1 })

/-- Synchronous part of revealAllTiles(triggeredBombTile): designate the
additional bombs and schedule the staggered reveals. -/
def revealAllTiles (c : Config) (excl : Option Nat) (s : GameState) : GameState :=
  { s with
    bombPositions := newBombKeys c s excl,
    pending := s.pending ++ cascadeSched c s excl,
    randUses := s.randUses + 1 }

/-- Synchronous part of revealTileWithFlip(tile, face, revealedByPlayer): the
guard on animating/revealed is evaluated now; on success only a setTimeout is
registered, at a delay interpolated between flipDelayMin and flipDelayMax by
the fraction of already-revealed tiles for player reveals, and at
flipDelayMin for cascade reveals. -/
def revealTileWithFlip (c : Config) (i : Nat) (face : Face) (revealedByPlayer : Bool)
    (s : GameState) : GameState :=
  match s.tiles[i]? with
  | none => s
  | some t =>
    if t.animating || t.revealed then s
    else
      let unrevealedN := (s.tiles.filter (fun t2 => !t2.revealed)).length
      let revealedCount := s.tiles.length - unrevealedN
      let progress : ℚ := min 1 ((revealedCount : ℚ) / (s.tiles.length : ℚ))
      let flipDelay : ℚ :=
        if revealedByPlayer then c.flipDelayMin + (c.flipDelayMax - c.flipDelayMin) * progress
        else c.flipDelayMin
      { s with pending := s.pending ++
          [{ kind := EvKind.flipStart i face revealedByPlayer, time := s.now + flipDelay }] }

/-- The enterWaitingState(tile) call of the pointertap handler: record the
selection, then wiggleTile (which sets animating and schedules its completion
when the effect is enabled; onCardSelected, the tilt direction and onChange
are visual/collaborator effects outside the machine). The argument t is the
current tile value at index i. -/
def enterWaitingState (c : Config) (i : Nat) (t : MTile) (s : GameState) : GameState :=
  let s1 := { s with waitingForChoice := true, selectedTile := some i }
  if c.wiggleSelectionEnabled && !t.animating then
    let ep := t.wiggleEpoch + 1
    { setTile s1 i { t with animating := true, wiggleEpoch := ep } with
      pending := s1.pending ++
        [{ kind := EvKind.wiggleComplete i ep, time := s.now + c.wiggleSelectionDuration }] }
  else s1

/-- The pointertap handler installed by createTile: reject the tap when the
game is over, a choice is pending, the tile is revealed or animating, or no
more than mines untapped tiles remain; otherwise mark the tile tapped and
enter the waiting state (the hoverTile(t,false) call in between only touches
the visual layer). -/
def pointertapHandler (c : Config) (i : Nat) (s : GameState) : GameState :=
  match s.tiles[i]? with
  | none => s
  | some t =>
    if s.gameOver || s.waitingForChoice || t.revealed || t.animating
        || decide (untapedCount s ≤ s.mines) then s
    else
      let t1 := { t with taped := true }
      enterWaitingState c i t1 (setTile s i t1)

/-- Shared opening of both confirm functions: if the selected tile is
animating, stopHover and stopWiggle it (stopHover only touches the hover
token of the visual layer; stopWiggle clears the animating flag). -/
def confirmPre (s : GameState) : GameState :=
  match s.selectedTile with
  | some i =>
    match s.tiles[i]? with
    | some t => if t.animating then setTile s i (stopWiggleT t) else s
    | none => s
  | none => s

/-- The setSelectedCardIsDiamond host API: after the stop-animation opening,
guard on the waiting state, then resolve the selection and flip the tile as
a diamond. -/
def setSelectedCardIsDiamond (c : Config) (s0 : GameState) : GameState :=
  let s := confirmPre s0
  match s.selectedTile with
  | none => s
  | some i =>
    match s.tiles[i]? with
    | none => s
    | some t =>
      if !s.waitingForChoice || t.revealed || t.animating then s
      else
        revealTileWithFlip c i Face.diamond true
          { s with waitingForChoice := false, selectedTile := none }

/-- The SetSelectedCardIsBomb host API: same shape as the diamond confirm,
but gameOver is set synchronously before the flip is even scheduled. -/
def SetSelectedCardIsBomb (c : Config) (s0 : GameState) : GameState :=
  let s := confirmPre s0
  match s.selectedTile with
  | none => s
  | some i =>
    match s.tiles[i]? with
    | none => s
    | some t =>
      if !s.waitingForChoice || t.revealed || t.animating then s
      else
        revealTileWithFlip c i Face.bomb true
          { s with gameOver := true, waitingForChoice := false, selectedTile := none }

/-- Body of the setTimeout of revealTileWithFlip: stopHover and stopWiggle
the tile, mark it animating and start the flip tween (whose completion is
scheduled flipDuration later). There is no re-check of the revealed or
animating flags here; the guard ran at scheduling time. -/
def fireFlipStart (c : Config) (i : Nat) (face : Face) (byPlayer : Bool)
    (s : GameState) : GameState :=
  match s.tiles[i]? with
  | none => s
  | some t =>
    let t1 := { stopWiggleT t with animating := true }
    { setTile s i t1 with pending := s.pending ++
        [{ kind := EvKind.flipComplete i face byPlayer, time := s.now + c.flipDuration }] }

/-- Complete callback of the flip tween: flatten the pose (which installs
fresh kill tokens), clear animating, mark revealed, and for player reveals
run the win/loss bookkeeping: a bomb triggers revealAllTiles(tile) and
onGameOver; a diamond increments revealedSafe and, once it reaches
totalSafe, sets gameOver and triggers revealAllTiles() and onWin. -/
def fireFlipComplete (c : Config) (i : Nat) (face : Face) (byPlayer : Bool)
    (s : GameState) : GameState :=
  match s.tiles[i]? with
  | none => s
  | some t =>
    let s1 := setTile s i { t with wiggleEpoch := t.wiggleEpoch + 1, animating := false, revealed := true }
    if byPlayer then
      match face with
      | Face.bomb =>
        let s2 := revealAllTiles c (some i) s1
        { s2 with gameOverFires := s2.gameOverFires + 1 }
      | Face.diamond =>
        let s2 := { s1 with revealedSafe := s1.revealedSafe + 1 }
        if s2.totalSafe ≤ (s2.revealedSafe : Int) then
          let s3 := revealAllTiles c none { s2 with gameOver := true }
          { s3 with winFires := s3.winFires + 1 }
        else s2
    else s1

/-- Complete callback of the wiggle tween: inert when its captured token is
stale, otherwise it restores the pose (visual) and clears animating. -/
def fireWiggleComplete (i : Nat) (epoch : Nat) (s : GameState) : GameState :=
  match s.tiles[i]? with
  | none => s
  | some t => if t.wiggleEpoch == epoch then setTile s i { t with animating := false } else s

/-- Body of a staggered setTimeout of revealAllTiles: the full
revealTileWithFlip call for the designated face, as a non-player reveal. -/
def fireCascadeCall (c : Config) (i : Nat) (face : Face) (s : GameState) : GameState :=
  revealTileWithFlip c i face false s

/-- Dispatch a pending deferred callback. -/
def fireEv (c : Config) (e : Ev) (s : GameState) : GameState :=
  match e.kind with
  | EvKind.flipStart i f b => fireFlipStart c i f b s
  | EvKind.flipComplete i f b => fireFlipComplete c i f b s
  | EvKind.wiggleComplete i ep => fireWiggleComplete i ep s
  | EvKind.cascadeCall i f => fireCascadeCall c i f s

/-- Fresh tile as laid out by buildBoard/createTile. -/
def freshTile (r c : Nat) : MTile :=
  { row := r, col := c, revealed := false, animating := false, taped := false, wiggleEpoch := 0 }

/-- Board of grid * grid fresh tiles in row-major order, as buildBoard
creates them. -/
def buildTiles (grid : Nat) : List MTile :=
  (List.range (grid * grid)).map (fun k => freshTile (k / grid) (k % grid))

/-- Clamp of a requested mine count: Math.max(1, Math.min(n, GRID*GRID - 1)).
The result is at least 1, so the conversion to a natural number is exact. -/
def clampMines (grid : Nat) (n : Int) : Nat :=
  (max 1 (min n ((grid : Int) * (grid : Int) - 1))).toNat

/-- Initial state after createMinesGame set up its module variables and
buildBoard ran (minesOpt is opts.mines after the ?? 5 default). -/
def mkInitial (c : Config) (minesOpt : Int) : GameState :=
  let m := clampMines c.grid minesOpt
  { mines := m, tiles := buildTiles c.grid, gameOver := false, revealedSafe := 0,
    totalSafe := (c.grid : Int) * (c.grid : Int) - m, waitingForChoice := false,
    selectedTile := none, bombPositions := [], pending := [], now := 0,
    randUses := 0, winFires := 0, gameOverFires := 0 }

/-- The reset host API: clear gameOver, clearSelection (its hover and tint
writes are visual), hide the win popup (visual), clear bombPositions and run
buildBoard, which rebuilds the tiles and resets revealedSafe and totalSafe.
The source does not cancel outstanding timers: pending is kept, its entries
referring to the discarded tile objects. -/
def reset (c : Config) (s : GameState) : GameState :=
  { s with gameOver := false, waitingForChoice := false, selectedTile := none,
           bombPositions := [], tiles := buildTiles c.grid, revealedSafe := 0,
           totalSafe := (c.grid : Int) * (c.grid : Int) - s.mines }

/-- JavaScript number handed to setMines: either an exact finite value or one
of the non-finite values that n | 0 coerces to 0. Non-numeric inputs
(undefined, null, objects) coerce through ToNumber to NaN or a number and are
covered by these cases. -/
inductive JSNum
  | finite (q : ℚ)
  | nan
  | posInf
  | negInf

/-- Truncation of a rational toward zero, as ToInt32 first truncates the
double. Integer division of the reduced numerator by the (positive)
denominator rounds toward zero in Lean, matching the JS truncation. -/
def truncRat (q : ℚ) : Int := q.num / (q.den : Int)

/-- Wrap of an integer into the signed 32-bit range, the second half of the
JS ToInt32 conversion performed by n | 0. -/
def wrapInt32 (n : Int) : Int :=
  let r := n % 4294967296
  if r < 2147483648 then r else r - 4294967296

/-- The complete n | 0 coercion applied by setMines to its argument. -/
def toInt32 : JSNum → Int
  | JSNum.finite q => wrapInt32 (truncRat q)
  | JSNum.nan => 0
  | JSNum.posInf => 0
  | JSNum.negInf => 0

/-- The setMines host API: mines = Math.max(1, Math.min(n | 0, GRID*GRID - 1)),
then reset(). -/
def setMines (c : Config) (n : JSNum) (s : GameState) : GameState :=
  reset c { s with mines := clampMines c.grid (toInt32 n) }

/-- One step of the machine. User inputs (a tap or one of the two confirm
calls) may occur at any time t no earlier than the clock and no later than
every pending deferred callback (a callback due earlier must fire first).
Deferred callbacks fire in time order: a pending event may fire only when no
other pending event is due strictly earlier. -/
inductive Step (c : Config) : GameState → GameState → Prop
  | tap (s : GameState) (i : Nat) (t : ℚ) (h1 : s.now ≤ t)
      (h2 : ∀ e ∈ s.pending, t ≤ e.time) :
      Step c s (pointertapHandler c i { s with now := t })
  | confirmDiamond (s : GameState) (t : ℚ) (h1 : s.now ≤ t)
      (h2 : ∀ e ∈ s.pending, t ≤ e.time) :
      Step c s (setSelectedCardIsDiamond c { s with now := t })
  | confirmBomb (s : GameState) (t : ℚ) (h1 : s.now ≤ t)
      (h2 : ∀ e ∈ s.pending, t ≤ e.time) :
      Step c s (SetSelectedCardIsBomb c { s with now := t })
  | fire (s : GameState) (e : Ev) (he : e ∈ s.pending)
      (hmin : ∀ e2 ∈ s.pending, e.time ≤ e2.time) (hn : s.now ≤ e.time) :
      Step c s (fireEv c e { s with now := e.time, pending := s.pending.erase e })

/-- States reachable within a single game started with the given requested
mine count (no intervening reset, setMines or board rebuild). -/
inductive Reachable (c : Config) (minesOpt : Int) : GameState → Prop
  | init : Reachable c minesOpt (mkInitial c minesOpt)
  | step {s s2 : GameState} : Reachable c minesOpt s → Step c s s2 → Reachable c minesOpt s2

/-- Reflexive-transitive closure of the step relation: everything that can
happen from a given state onward within the game. -/
inductive Steps (c : Config) : GameState → GameState → Prop
  | refl (s : GameState) : Steps c s s
  | tail {s s2 s3 : GameState} : Steps c s s2 → Step c s2 s3 → Steps c s s3

/-! Shape lemmas: which state fields each modelled source function can write. -/

theorem revealTileWithFlip_shape (c : Config) (i : Nat) (f : Face) (b : Bool) (s : GameState) :
    ∃ p, revealTileWithFlip c i f b s = { s with pending := p } := by
  unfold revealTileWithFlip
  split
  · exact ⟨s.pending, rfl⟩
  · split
    · exact ⟨s.pending, rfl⟩
    · exact ⟨_, rfl⟩

theorem setTile_shape (s : GameState) (i : Nat) (t : MTile) :
    ∃ ts, setTile s i t = { s with tiles := ts } := ⟨_, rfl⟩

theorem revealAllTiles_shape (c : Config) (excl : Option Nat) (s : GameState) :
    ∃ bp p r, revealAllTiles c excl s = { s with bombPositions := bp, pending := p, randUses := r } :=
  ⟨_, _, _, rfl⟩

theorem enterWaitingState_shape (c : Config) (i : Nat) (t : MTile) (s : GameState) :
    ∃ ts p, enterWaitingState c i t s =
      { s with tiles := ts, pending := p, waitingForChoice := true, selectedTile := some i } := by
  unfold enterWaitingState
  split
  · exact ⟨_, _, rfl⟩
  · exact ⟨s.tiles, s.pending, rfl⟩

theorem confirmPre_shape (s : GameState) :
    ∃ ts, confirmPre s = { s with tiles := ts } := by
  unfold confirmPre
  split
  · split
    · split
      · exact ⟨_, rfl⟩
      · exact ⟨s.tiles, rfl⟩
    · exact ⟨s.tiles, rfl⟩
  · exact ⟨s.tiles, rfl⟩

theorem fireFlipStart_shape (c : Config) (i : Nat) (f : Face) (b : Bool) (s : GameState) :
    ∃ ts p, fireFlipStart c i f b s = { s with tiles := ts, pending := p } := by
  unfold fireFlipStart
  split
  · exact ⟨s.tiles, s.pending, rfl⟩
  · exact ⟨_, _, rfl⟩

theorem fireWiggleComplete_shape (i ep : Nat) (s : GameState) :
    ∃ ts, fireWiggleComplete i ep s = { s with tiles := ts } := by
  unfold fireWiggleComplete
  split
  · exact ⟨s.tiles, rfl⟩
  · split
    · exact ⟨_, rfl⟩
    · exact ⟨s.tiles, rfl⟩

theorem fireFlipComplete_shape (c : Config) (i : Nat) (f : Face) (b : Bool) (s : GameState) :
    ∃ ts rs go bp p ru wf gof,
      fireFlipComplete c i f b s =
        { s with tiles := ts, revealedSafe := rs, gameOver := go, bombPositions := bp,
                 pending := p, randUses := ru, winFires := wf, gameOverFires := gof }
      ∧ (go = s.gameOver ∨ go = true) := by
  unfold fireFlipComplete
  split
  · exact ⟨s.tiles, s.revealedSafe, s.gameOver, s.bombPositions, s.pending, s.randUses,
      s.winFires, s.gameOverFires, rfl, Or.inl rfl⟩
  · split
    · split
      · exact ⟨_, s.revealedSafe, s.gameOver, _, _, _, s.winFires, _, rfl, Or.inl rfl⟩
      · dsimp only
        split
        · exact ⟨_, _, true, _, _, _, _, s.gameOverFires, rfl, Or.inr rfl⟩
        · exact ⟨_, _, s.gameOver, s.bombPositions, s.pending, s.randUses,
            s.winFires, s.gameOverFires, rfl, Or.inl rfl⟩
    · exact ⟨_, s.revealedSafe, s.gameOver, s.bombPositions, s.pending, s.randUses,
        s.winFires, s.gameOverFires, rfl, Or.inl rfl⟩

/-! Guarded no-op lemmas of the tap handler. -/

/-- Tap rejection while a choice is pending: the handler returns with the
state untouched. -/
theorem tap_noop_of_waiting (c : Config) (i : Nat) (s : GameState)
    (hw : s.waitingForChoice = true) : pointertapHandler c i s = s := by
  unfold pointertapHandler
  split
  · rfl
  · simp [hw]

/-- Tap rejection after game over: the handler returns with the state
untouched. -/
theorem tap_noop_of_gameOver (c : Config) (i : Nat) (s : GameState)
    (hg : s.gameOver = true) : pointertapHandler c i s = s := by
  unfold pointertapHandler
  split
  · rfl
  · simp [hg]

/-- The tap handler never writes gameOver. -/
theorem tap_gameOver_eq (c : Config) (i : Nat) (s : GameState) :
    (pointertapHandler c i s).gameOver = s.gameOver := by
  unfold pointertapHandler
  split
  · rfl
  · split
    · rfl
    · obtain ⟨ts2, p2, h2⟩ := enterWaitingState_shape c i _ (setTile s i _)
      rw [h2]
      rfl

/-- The tap handler preserves the equality of the waiting flag with the
presence of a selection (both become true on success, neither moves on
rejection). -/
theorem tap_waitSel (c : Config) (i : Nat) (s : GameState)
    (h : s.waitingForChoice = s.selectedTile.isSome) :
    (pointertapHandler c i s).waitingForChoice = (pointertapHandler c i s).selectedTile.isSome := by
  unfold pointertapHandler
  split
  · exact h
  · split
    · exact h
    · obtain ⟨ts2, p2, h2⟩ := enterWaitingState_shape c i _ (setTile s i _)
      rw [h2]
      rfl

/-- Confirm functions never write gameOver except the bomb confirm setting
it to true: the diamond confirm leaves it unchanged. -/
theorem confirmD_gameOver_eq (c : Config) (s : GameState) :
    (setSelectedCardIsDiamond c s).gameOver = s.gameOver := by
  obtain ⟨ts, hpre⟩ := confirmPre_shape s
  unfold setSelectedCardIsDiamond
  rw [hpre]
  dsimp only
  split
  · rfl
  · split
    · rfl
    · split
      · rfl
      · obtain ⟨p, hflip⟩ := revealTileWithFlip_shape c _ Face.diamond true _
        rw [hflip]

/-- The bomb confirm can only raise gameOver, never clear it. -/
theorem confirmB_gameOver_mono (c : Config) (s : GameState) (hg : s.gameOver = true) :
    (SetSelectedCardIsBomb c s).gameOver = true := by
  obtain ⟨ts, hpre⟩ := confirmPre_shape s
  unfold SetSelectedCardIsBomb
  rw [hpre]
  dsimp only
  split
  · exact hg
  · split
    · exact hg
    · split
      · exact hg
      · obtain ⟨p, hflip⟩ := revealTileWithFlip_shape c _ Face.bomb true _
        rw [hflip]

/-- The diamond confirm preserves the equality of the waiting flag with the
presence of a selection. -/
theorem confirmD_waitSel (c : Config) (s : GameState)
    (h : s.waitingForChoice = s.selectedTile.isSome) :
    (setSelectedCardIsDiamond c s).waitingForChoice =
      (setSelectedCardIsDiamond c s).selectedTile.isSome := by
  obtain ⟨ts, hpre⟩ := confirmPre_shape s
  unfold setSelectedCardIsDiamond
  rw [hpre]
  dsimp only
  split
  · exact h
  · split
    · exact h
    · split
      · exact h
      · obtain ⟨p, hflip⟩ := revealTileWithFlip_shape c _ Face.diamond true _
        rw [hflip]
        rfl

/-- The bomb confirm preserves the equality of the waiting flag with the
presence of a selection. -/
theorem confirmB_waitSel (c : Config) (s : GameState)
    (h : s.waitingForChoice = s.selectedTile.isSome) :
    (SetSelectedCardIsBomb c s).waitingForChoice =
      (SetSelectedCardIsBomb c s).selectedTile.isSome := by
  obtain ⟨ts, hpre⟩ := confirmPre_shape s
  unfold SetSelectedCardIsBomb
  rw [hpre]
  dsimp only
  split
  · exact h
  · split
    · exact h
    · split
      · exact h
      · obtain ⟨p, hflip⟩ := revealTileWithFlip_shape c _ Face.bomb true _
        rw [hflip]
        rfl

/-- Deferred callbacks never touch the waiting flag or the selection. -/
theorem fireEv_waitSel (c : Config) (e : Ev) (s : GameState) :
    (fireEv c e s).waitingForChoice = s.waitingForChoice
    ∧ (fireEv c e s).selectedTile = s.selectedTile := by
  unfold fireEv
  split
  · obtain ⟨ts, p, h⟩ := fireFlipStart_shape c _ _ _ s
    rw [h]; exact ⟨rfl, rfl⟩
  · obtain ⟨ts, rs, go, bp, p, ru, wf, gof, h, hgo⟩ := fireFlipComplete_shape c _ _ _ s
    rw [h]; exact ⟨rfl, rfl⟩
  · obtain ⟨ts, h⟩ := fireWiggleComplete_shape _ _ s
    rw [h]; exact ⟨rfl, rfl⟩
  · unfold fireCascadeCall
    obtain ⟨p, h⟩ := revealTileWithFlip_shape c _ _ false s
    rw [h]; exact ⟨rfl, rfl⟩

/-- Deferred callbacks can only raise gameOver, never clear it. -/
theorem fireEv_gameOver_mono (c : Config) (e : Ev) (s : GameState) (hg : s.gameOver = true) :
    (fireEv c e s).gameOver = true := by
  unfold fireEv
  split
  · obtain ⟨ts, p, h⟩ := fireFlipStart_shape c _ _ _ s
    rw [h]; exact hg
  · obtain ⟨ts, rs, go, bp, p, ru, wf, gof, h, hgo⟩ := fireFlipComplete_shape c _ _ _ s
    rw [h]
    rcases hgo with h2 | h2
    · rw [h2]; exact hg
    · exact h2
  · obtain ⟨ts, h⟩ := fireWiggleComplete_shape _ _ s
    rw [h]; exact hg
  · unfold fireCascadeCall
    obtain ⟨p, h⟩ := revealTileWithFlip_shape c _ _ false s
    rw [h]; exact hg

/-- Once gameOver holds it holds after every further step of the machine
(reset and setMines are outside the step relation). -/
theorem Step.gameOver_preserved {c : Config} {s s2 : GameState} (h : Step c s s2)
    (hg : s.gameOver = true) : s2.gameOver = true := by
  cases h with
  | tap i t h1 h2 => rw [tap_gameOver_eq]; exact hg
  | confirmDiamond t h1 h2 => rw [confirmD_gameOver_eq]; exact hg
  | confirmBomb t h1 h2 => exact confirmB_gameOver_mono c _ hg
  | fire e he hmin hn => exact fireEv_gameOver_mono c e _ hg

/-- Every step of the machine preserves the agreement of the waiting flag
with the presence of a selection. -/
theorem Step.waitSel {c : Config} {s s2 : GameState} (h : Step c s s2)
    (hi : s.waitingForChoice = s.selectedTile.isSome) :
    s2.waitingForChoice = s2.selectedTile.isSome := by
  cases h with
  | tap i t h1 h2 => exact tap_waitSel c i _ hi
  | confirmDiamond t h1 h2 => exact confirmD_waitSel c _ hi
  | confirmBomb t h1 h2 => exact confirmB_waitSel c _ hi
  | fire e he hmin hn =>
    obtain ⟨hw, hs⟩ := fireEv_waitSel c e { s with now := e.time, pending := s.pending.erase e }
    rw [hw, hs]; exact hi

/-- The gameOver flag survives any finite run of further steps. -/
theorem Steps.gameOver_persists {c : Config} {s s2 : GameState} (h : Steps c s s2)
    (hg : s.gameOver = true) : s2.gameOver = true := by
  induction h with
  | refl => exact hg
  | tail hst hstep ih => exact hstep.gameOver_preserved ih

/-! Permutation facts about the Fisher-Yates shuffle of revealAllTiles. -/

/-- Swapping two positions permutes the list. -/
theorem swapList_perm {α : Type} [DecidableEq α] (l : List α) (i j : Nat) :
    List.Perm (swapList l i j) l := by
  unfold swapList
  split
  · rename_i a b heqi heqj
    rcases List.getElem?_eq_some_iff.mp heqi with ⟨hi, hvi⟩
    rcases List.getElem?_eq_some_iff.mp heqj with ⟨hj, hvj⟩
    subst hvi
    subst hvj
    have hj2 : j < (l.set i l[j]).length := by simpa using hj
    apply List.perm_iff_count.mpr
    intro x
    rw [List.count_set l[i] x (l.set i l[j]) j hj2, List.count_set l[j] x l i hi,
      List.getElem_set hj2]
    simp only [beq_iff_eq, ite_self]
    have h1 : l[i] = x → 1 ≤ List.count x l :=
      fun hx => List.one_le_count_iff.mpr (hx ▸ List.getElem_mem hi)
    have h2 : l[j] = x → 1 ≤ List.count x l :=
      fun hx => List.one_le_count_iff.mpr (hx ▸ List.getElem_mem hj)
    by_cases hx1 : l[i] = x <;> by_cases hx2 : l[j] = x
    · have hc := h1 hx1
      simp [hx1, hx2]
      try omega
    · have hc := h1 hx1
      simp [hx1, hx2]
      try omega
    · have hc := h2 hx2
      simp [hx1, hx2]
      try omega
    · simp [hx1, hx2]
      try omega
  · exact List.Perm.refl l

/-- The shuffle loop permutes the list, for every sequence of drawn values. -/
theorem fyAux_perm {α : Type} [DecidableEq α] (rand : Nat → Nat) :
    ∀ (n : Nat) (l : List α), List.Perm (fyAux rand n l) l
  | 0, l => List.Perm.refl l
  | n + 1, l =>
    (fyAux_perm rand n (swapList l (n + 1) (rand (n + 1)))).trans
      (swapList_perm l (n + 1) (rand (n + 1)))

/-- The Fisher-Yates shuffle produces a permutation of its input, for every
sequence of drawn values (out-of-range draws cannot occur in the source,
and in the model they leave the list unchanged). -/
theorem fisherYates_perm {α : Type} [DecidableEq α] (rand : Nat → Nat) (l : List α) :
    List.Perm (fisherYates rand l) l :=
  fyAux_perm rand (l.length - 1) l

/-- The list of unrevealed tile indices has no duplicates. -/
theorem unrevealedIdx_nodup (s : GameState) : (unrevealedIdx s).Nodup :=
  List.Nodup.filter _ (List.nodup_range s.tiles.length)

/-- Unrevealed tile indices are positions into the tiles array. -/
theorem unrevealedIdx_lt (s : GameState) {i : Nat} (h : i ∈ unrevealedIdx s) :
    i < s.tiles.length := by
  unfold unrevealedIdx at h
  exact List.mem_range.mp (List.mem_of_mem_filter h)

/-- The available list has no duplicates. -/
theorem availableIdx_nodup (s : GameState) (excl : Option Nat) :
    (availableIdx s excl).Nodup := by
  unfold availableIdx
  cases excl with
  | none => exact unrevealedIdx_nodup s
  | some e => exact List.Nodup.filter _ (unrevealedIdx_nodup s)

/-- Members of the available list are unrevealed and differ from the
excluded triggering tile. -/
theorem availableIdx_mem (s : GameState) (e : Nat) {i : Nat}
    (h : i ∈ availableIdx s (some e)) : i ∈ unrevealedIdx s ∧ i ≠ e := by
  unfold availableIdx at h
  refine ⟨List.mem_of_mem_filter h, ?_⟩
  have h2 := List.of_mem_filter h
  simpa using h2

/-- Tile index a pending deferred callback targets. -/
def evTarget (ev : Ev) : Nat :=
  match ev.kind with
  | EvKind.flipStart i _ _ => i
  | EvKind.flipComplete i _ _ => i
  | EvKind.wiggleComplete i _ => i
  | EvKind.cascadeCall i _ => i

/-- Stagger times of the cascade are exactly now + revealAllIntervalDelay * idx
in tile enumeration order. -/
theorem cascadeSched_times (c : Config) (s : GameState) (excl : Option Nat) :
    (cascadeSched c s excl).map Ev.time =
      (List.range (unrevealedIdx s).length).map
        (fun k : Nat => s.now + c.revealAllIntervalDelay * (k : ℚ)) := by
  unfold cascadeSched
  rw [List.map_map, List.enum_eq_zip_range]
  have h1 : (Ev.time ∘ fun p : Nat × Nat =>
      ({ kind := EvKind.cascadeCall p.2
            (if (newBombKeys c s excl).contains (keyAt s p.2) then Face.bomb else Face.diamond),
         time := s.now + c.revealAllIntervalDelay * (p.1 : ℚ) } : Ev)) =
      ((fun k : Nat => s.now + c.revealAllIntervalDelay * (k : ℚ)) ∘ Prod.fst) := rfl
  rw [h1, ← List.map_map]
  rw [List.map_fst_zip]
  rw [List.length_range]

/-- The cascade schedules exactly the still-unrevealed tiles, in tile
enumeration order. -/
theorem cascadeSched_targets (c : Config) (s : GameState) (excl : Option Nat) :
    (cascadeSched c s excl).map evTarget = unrevealedIdx s := by
  unfold cascadeSched
  rw [List.map_map]
  have h1 : (evTarget ∘ fun p : Nat × Nat =>
      ({ kind := EvKind.cascadeCall p.2
            (if (newBombKeys c s excl).contains (keyAt s p.2) then Face.bomb else Face.diamond),
         time := s.now + c.revealAllIntervalDelay * (p.1 : ℚ) } : Ev)) = Prod.snd := rfl
  rw [h1, List.enum_map_snd]

/-- With a positive stagger interval the cascade fire times are strictly
increasing in tile enumeration order. -/
theorem cascadeSched_strictMono (c : Config) (s : GameState) (excl : Option Nat)
    (hd : 0 < c.revealAllIntervalDelay) :
    List.Pairwise (fun a b : ℚ => a < b) ((cascadeSched c s excl).map Ev.time) := by
  rw [cascadeSched_times]
  refine List.Pairwise.map _ ?_ (List.pairwise_lt_range (unrevealedIdx s).length)
  intro a b hab
  have : (a : ℚ) < (b : ℚ) := by exact_mod_cast hab
  have h2 := mul_lt_mul_of_pos_left this hd
  linarith

/-- The number of designated bombs is mines − 1 when enough tiles remain. -/
theorem bombIdx_length (c : Config) (s : GameState) (excl : Option Nat)
    (h : s.mines - 1 ≤ (availableIdx s excl).length) :
    (bombIdx c s excl).length = s.mines - 1 := by
  unfold bombIdx
  rw [List.length_take]
  have hp := (fisherYates_perm (c.rand s.randUses) (availableIdx s excl)).length_eq
  unfold shuffledIdx
  omega

/-- Every designated bomb is one of the available tiles. -/
theorem bombIdx_mem (c : Config) (s : GameState) (excl : Option Nat)
    {b : Nat} (hb : b ∈ bombIdx c s excl) : b ∈ availableIdx s excl := by
  unfold bombIdx at hb
  have h2 := List.take_subset _ _ hb
  exact (fisherYates_perm (c.rand s.randUses) (availableIdx s excl)).mem_iff.mp h2

/-- Projection fact: stopWiggle clears the animating flag. -/
theorem stopWiggleT_animating (t : MTile) : (stopWiggleT t).animating = false := rfl

/-- Projection fact: stopWiggle does not touch the revealed flag. -/
theorem stopWiggleT_revealed (t : MTile) : (stopWiggleT t).revealed = t.revealed := rfl

/-- Resolution of a pending selection by the diamond confirm: for a pending
selection on an unrevealed tile (wiggling or not), the call clears the
waiting state, leaves gameOver alone, leaves the tile unrevealed with its
animating flag cleared, and appends exactly one deferred flip start. -/
theorem confirmD_resolves (c : Config) (s : GameState) (i : Nat) (t : MTile)
    (hw : s.waitingForChoice = true) (hsel : s.selectedTile = some i)
    (ht : s.tiles[i]? = some t) (hr : t.revealed = false) :
    (setSelectedCardIsDiamond c s).waitingForChoice = false
    ∧ (setSelectedCardIsDiamond c s).selectedTile = none
    ∧ (setSelectedCardIsDiamond c s).gameOver = s.gameOver
    ∧ (∃ t2, (setSelectedCardIsDiamond c s).tiles[i]? = some t2
        ∧ t2.animating = false ∧ t2.revealed = false)
    ∧ ∃ d, (setSelectedCardIsDiamond c s).pending =
        s.pending ++ [{ kind := EvKind.flipStart i Face.diamond true, time := s.now + d }] := by
  have hi : i < s.tiles.length := (List.getElem?_eq_some_iff.mp ht).1
  by_cases ha : t.animating = true
  · have hset : (s.tiles.set i (stopWiggleT t))[i]? = some (stopWiggleT t) :=
      List.getElem?_set_self hi
    simp only [setSelectedCardIsDiamond, confirmPre, revealTileWithFlip, setTile,
      hsel, ht, ha, if_true, hset, hw, hr, stopWiggleT_animating, stopWiggleT_revealed,
      Bool.not_true, Bool.or_self, Bool.false_or, Bool.or_false, if_false]
    refine ⟨rfl, rfl, rfl, ⟨_, hset, stopWiggleT_animating t, ?_⟩, ⟨_, rfl⟩⟩
    rw [stopWiggleT_revealed]; exact hr
  · have hanot : t.animating = false := by
      cases hb : t.animating
      · rfl
      · exact absurd hb ha
    simp only [setSelectedCardIsDiamond, confirmPre, revealTileWithFlip, setTile,
      hsel, ht, hanot, hw, hr, Bool.false_eq_true, if_false, ite_false,
      Bool.not_true, Bool.or_self, Bool.false_or, Bool.or_false]
    refine ⟨trivial, trivial, trivial, ⟨t, rfl, hanot, hr⟩, ⟨_, rfl⟩⟩

/-- Resolution of a pending selection by the bomb confirm: as the diamond
case, but gameOver is true already in the returned state, with the flip
merely scheduled. -/
theorem confirmB_resolves (c : Config) (s : GameState) (i : Nat) (t : MTile)
    (hw : s.waitingForChoice = true) (hsel : s.selectedTile = some i)
    (ht : s.tiles[i]? = some t) (hr : t.revealed = false) :
    (SetSelectedCardIsBomb c s).waitingForChoice = false
    ∧ (SetSelectedCardIsBomb c s).selectedTile = none
    ∧ (SetSelectedCardIsBomb c s).gameOver = true
    ∧ (∃ t2, (SetSelectedCardIsBomb c s).tiles[i]? = some t2
        ∧ t2.animating = false ∧ t2.revealed = false)
    ∧ ∃ d, (SetSelectedCardIsBomb c s).pending =
        s.pending ++ [{ kind := EvKind.flipStart i Face.bomb true, time := s.now + d }] := by
  have hi : i < s.tiles.length := (List.getElem?_eq_some_iff.mp ht).1
  by_cases ha : t.animating = true
  · have hset : (s.tiles.set i (stopWiggleT t))[i]? = some (stopWiggleT t) :=
      List.getElem?_set_self hi
    simp only [SetSelectedCardIsBomb, confirmPre, revealTileWithFlip, setTile,
      hsel, ht, ha, if_true, hset, hw, hr, stopWiggleT_animating, stopWiggleT_revealed,
      Bool.not_true, Bool.or_self, Bool.false_or, Bool.or_false, if_false]
    refine ⟨rfl, rfl, rfl, ⟨_, hset, stopWiggleT_animating t, ?_⟩, ⟨_, rfl⟩⟩
    rw [stopWiggleT_revealed]; exact hr
  · have hanot : t.animating = false := by
      cases hb : t.animating
      · rfl
      · exact absurd hb ha
    simp only [SetSelectedCardIsBomb, confirmPre, revealTileWithFlip, setTile,
      hsel, ht, hanot, hw, hr, Bool.false_eq_true, if_false, ite_false,
      Bool.not_true, Bool.or_self, Bool.false_or, Bool.or_false]
    refine ⟨trivial, trivial, trivial, ⟨t, rfl, hanot, hr⟩, ⟨_, rfl⟩⟩

/-- With no selection the diamond confirm returns without touching anything. -/
theorem confirmD_noop_of_unselected (c : Config) (s : GameState)
    (hsel : s.selectedTile = none) : setSelectedCardIsDiamond c s = s := by
  simp [setSelectedCardIsDiamond, confirmPre, hsel]

/-- With no selection the bomb confirm returns without touching anything. -/
theorem confirmB_noop_of_unselected (c : Config) (s : GameState)
    (hsel : s.selectedTile = none) : SetSelectedCardIsBomb c s = s := by
  simp [SetSelectedCardIsBomb, confirmPre, hsel]

/-- Configuration used for concrete evaluations: a 2 by 2 grid with every
animation option at its source default and a fixed zero random stream. -/
def cfg2 : Config :=
  { grid := 2, wiggleSelectionEnabled := true, wiggleSelectionDuration := 900,
    flipDelayMin := 150, flipDelayMax := 500, flipDuration := 300,
    revealAllIntervalDelay := 40, rand := fun _ _ => 0 }

/-- Claim C4: in every state in which waitingForChoice is already true, a tap
on any tile index is rejected by the handler guard and the whole game state
(flags, selection and every tile) is returned unchanged; since selectedTile
is a single slot, no second tile can enter the waiting-for-choice state. -/
theorem C4_tap_noop_while_waiting (c : Config) (i : Nat) (s : GameState)
    (hw : s.waitingForChoice = true) : pointertapHandler c i s = s :=
  tap_noop_of_waiting c i s hw

/-- Witness for C4 at a concrete reachable-style state: the initial 2 by 2
board with tile 0 pending. -/
theorem C4_tap_noop_while_waiting_witness :
    (pointertapHandler cfg2 0 (mkInitial cfg2 2)).waitingForChoice = true
    ∧ pointertapHandler cfg2 1 (pointertapHandler cfg2 0 (mkInitial cfg2 2)) =
        pointertapHandler cfg2 0 (mkInitial cfg2 2) :=
  ⟨by decide, C4_tap_noop_while_waiting cfg2 1 _ (by decide)⟩

/-- Pending-selection state used by concrete witnesses: the fresh 2 by 2
board with tile 0 selected and the machine waiting for the host decision. -/
def pendingState : GameState :=
  { mkInitial cfg2 2 with waitingForChoice := true, selectedTile := some 0 }

/-- Wiggling pending-selection state: the fresh 2 by 2 board right after the
tap on tile 0, whose selection wiggle is still running. -/
def tappedState : GameState :=
  pointertapHandler cfg2 0 (mkInitial cfg2 2)

/-- Claim C6: confirming the same resolved selection twice reveals the tile
only once: the first setSelectedCardIsDiamond call clears waitingForChoice
and selectedTile and schedules exactly one deferred flip, and the second
call is rejected by the waiting-state guard and returns the state unchanged
(scheduling no further flip). -/
theorem C6_confirm_safe_idempotent (c : Config) (s : GameState) (i : Nat) (t : MTile)
    (hw : s.waitingForChoice = true) (hsel : s.selectedTile = some i)
    (ht : s.tiles[i]? = some t) (hr : t.revealed = false) :
    (setSelectedCardIsDiamond c s).waitingForChoice = false
    ∧ (setSelectedCardIsDiamond c s).selectedTile = none
    ∧ (setSelectedCardIsDiamond c s).pending.length = s.pending.length + 1
    ∧ setSelectedCardIsDiamond c (setSelectedCardIsDiamond c s) = setSelectedCardIsDiamond c s := by
  obtain ⟨h1, h2, h3, h4, d, h5⟩ := confirmD_resolves c s i t hw hsel ht hr
  refine ⟨h1, h2, ?_, confirmD_noop_of_unselected c _ h2⟩
  rw [h5]
  simp

/-- Witness for C6 at the concrete pending state. -/
theorem C6_confirm_safe_idempotent_witness :
    (pendingState.waitingForChoice = true ∧ pendingState.selectedTile = some 0
      ∧ pendingState.tiles[0]? = some (freshTile 0 0) ∧ (freshTile 0 0).revealed = false)
    ∧ ((setSelectedCardIsDiamond cfg2 pendingState).waitingForChoice = false
      ∧ (setSelectedCardIsDiamond cfg2 pendingState).selectedTile = none
      ∧ (setSelectedCardIsDiamond cfg2 pendingState).pending.length =
          pendingState.pending.length + 1
      ∧ setSelectedCardIsDiamond cfg2 (setSelectedCardIsDiamond cfg2 pendingState) =
          setSelectedCardIsDiamond cfg2 pendingState) :=
  ⟨⟨by decide, by decide, by decide, by decide⟩,
   C6_confirm_safe_idempotent cfg2 pendingState 0 (freshTile 0 0)
     (by decide) (by decide) (by decide) (by decide)⟩

/-- Claim C10: both confirm calls stop the selected tile's hover and wiggle
before their guard runs, and stopWiggle clears the animating flag; hence a
confirm arriving while the selection wiggle is still playing (animating may
be true) is accepted: the waiting state is cleared, the tile ends with
animating false, and the flip is scheduled. The animating clause of the
guard therefore never rejects a confirm for a merely wiggling tile. -/
theorem C10_confirm_accepts_wiggling (c : Config) (s : GameState) (i : Nat) (t : MTile)
    (hw : s.waitingForChoice = true) (hsel : s.selectedTile = some i)
    (ht : s.tiles[i]? = some t) (hr : t.revealed = false) :
    ((setSelectedCardIsDiamond c s).waitingForChoice = false
      ∧ (∃ t2, (setSelectedCardIsDiamond c s).tiles[i]? = some t2 ∧ t2.animating = false)
      ∧ ∃ d, (setSelectedCardIsDiamond c s).pending =
          s.pending ++ [{ kind := EvKind.flipStart i Face.diamond true, time := s.now + d }])
    ∧ ((SetSelectedCardIsBomb c s).waitingForChoice = false
      ∧ (∃ t2, (SetSelectedCardIsBomb c s).tiles[i]? = some t2 ∧ t2.animating = false)
      ∧ ∃ d, (SetSelectedCardIsBomb c s).pending =
          s.pending ++ [{ kind := EvKind.flipStart i Face.bomb true, time := s.now + d }]) := by
  obtain ⟨d1, _, _, ⟨t2, ht2, ha2, _⟩, d, h5⟩ := confirmD_resolves c s i t hw hsel ht hr
  obtain ⟨b1, _, _, ⟨t3, ht3, ha3, _⟩, d4, h6⟩ := confirmB_resolves c s i t hw hsel ht hr
  exact ⟨⟨d1, ⟨t2, ht2, ha2⟩, ⟨d, h5⟩⟩, ⟨b1, ⟨t3, ht3, ha3⟩, ⟨d4, h6⟩⟩⟩

/-- Witness for C10 at the tapped state, whose selected tile is actually
mid-wiggle (animating = true) when the confirm arrives. -/
theorem C10_confirm_accepts_wiggling_witness :
    (tappedState.waitingForChoice = true ∧ tappedState.selectedTile = some 0
      ∧ tappedState.tiles[0]? = some
          { row := 0, col := 0, revealed := false, animating := true, taped := true,
            wiggleEpoch := 1 }
      ∧ (({ row := 0, col := 0, revealed := false, animating := true, taped := true,
            wiggleEpoch := 1 } : MTile)).animating = true)
    ∧ ((setSelectedCardIsDiamond cfg2 tappedState).waitingForChoice = false
      ∧ (∃ t2, (setSelectedCardIsDiamond cfg2 tappedState).tiles[0]? = some t2
          ∧ t2.animating = false)
      ∧ ∃ d, (setSelectedCardIsDiamond cfg2 tappedState).pending =
          tappedState.pending ++
            [{ kind := EvKind.flipStart 0 Face.diamond true, time := tappedState.now + d }]) :=
  ⟨⟨by decide, by decide, by decide, by decide⟩,
   (C10_confirm_accepts_wiggling cfg2 tappedState 0
      { row := 0, col := 0, revealed := false, animating := true, taped := true, wiggleEpoch := 1 }
      (by decide) (by decide) (by decide) (by decide)).1⟩

/-- Claim C1: from any state with a valid pending selection (waiting for the
host, selected tile unrevealed and not animating, game not over), the
SetSelectedCardIsBomb call returns with gameOver already true while the
selected tile is still face down — the flip exists only as one pending
deferred callback — and in every state reachable by any further steps
gameOver still holds and every tap is rejected with the state returned
unchanged (the step relation only advances the clock of a rejected tap). -/
theorem C1_bomb_confirm_sets_gameOver_synchronously (c : Config) (s : GameState)
    (i : Nat) (t : MTile)
    (hg : s.gameOver = false) (hw : s.waitingForChoice = true)
    (hsel : s.selectedTile = some i) (ht : s.tiles[i]? = some t)
    (hr : t.revealed = false) (ha : t.animating = false) :
    (SetSelectedCardIsBomb c s).gameOver = true
    ∧ (∃ t2, (SetSelectedCardIsBomb c s).tiles[i]? = some t2 ∧ t2.revealed = false)
    ∧ (∃ d, (SetSelectedCardIsBomb c s).pending =
        s.pending ++ [{ kind := EvKind.flipStart i Face.bomb true, time := s.now + d }])
    ∧ ∀ s3, Steps c (SetSelectedCardIsBomb c s) s3 →
        s3.gameOver = true ∧ ∀ j, pointertapHandler c j s3 = s3 := by
  obtain ⟨h1, h2, h3, ⟨t2, ht2, ha2, hr2⟩, d, h5⟩ := confirmB_resolves c s i t hw hsel ht hr
  refine ⟨h3, ⟨t2, ht2, hr2⟩, ⟨d, h5⟩, ?_⟩
  intro s3 hsteps
  have hg3 : s3.gameOver = true := hsteps.gameOver_persists h3
  exact ⟨hg3, fun j => tap_noop_of_gameOver c j s3 hg3⟩

/-- Witness for C1 at the concrete pending state. -/
theorem C1_bomb_confirm_sets_gameOver_synchronously_witness :
    (pendingState.gameOver = false ∧ pendingState.waitingForChoice = true
      ∧ pendingState.selectedTile = some 0
      ∧ pendingState.tiles[0]? = some (freshTile 0 0)
      ∧ (freshTile 0 0).revealed = false ∧ (freshTile 0 0).animating = false)
    ∧ ((SetSelectedCardIsBomb cfg2 pendingState).gameOver = true
      ∧ (∃ t2, (SetSelectedCardIsBomb cfg2 pendingState).tiles[0]? = some t2
          ∧ t2.revealed = false)
      ∧ (∃ d, (SetSelectedCardIsBomb cfg2 pendingState).pending =
          pendingState.pending ++
            [{ kind := EvKind.flipStart 0 Face.bomb true, time := pendingState.now + d }])
      ∧ ∀ s3, Steps cfg2 (SetSelectedCardIsBomb cfg2 pendingState) s3 →
          s3.gameOver = true ∧ ∀ j, pointertapHandler cfg2 j s3 = s3) :=
  ⟨⟨by decide, by decide, by decide, by decide, by decide, by decide⟩,
   C1_bomb_confirm_sets_gameOver_synchronously cfg2 pendingState 0 (freshTile 0 0)
     (by decide) (by decide) (by decide) (by decide) (by decide) (by decide)⟩

/-- Claim C3: a game-over reveal-all with a triggering bomb tile shuffles the
unrevealed tiles other than the triggering one with a Fisher-Yates shuffle
(the result is a permutation of them, for every random stream), designates
exactly mines − 1 of them as additional bombs — never the triggering tile —
and schedules every unrevealed tile's flip with stagger delay
revealAllIntervalDelay * idx, a strictly increasing sequence in tile
enumeration order (for the positive source delay). -/
theorem C3_revealAll_fisherYates (c : Config) (s : GameState) (e : Nat)
    (henough : s.mines - 1 ≤ (availableIdx s (some e)).length)
    (hd : 0 < c.revealAllIntervalDelay) :
    List.Perm (shuffledIdx c s (some e)) (availableIdx s (some e))
    ∧ availableIdx s (some e) = (unrevealedIdx s).filter (fun i => i != e)
    ∧ (bombIdx c s (some e)).length = s.mines - 1
    ∧ (∀ b ∈ bombIdx c s (some e), b ≠ e ∧ b ∈ unrevealedIdx s)
    ∧ (cascadeSched c s (some e)).map evTarget = unrevealedIdx s
    ∧ (cascadeSched c s (some e)).map Ev.time =
        (List.range (unrevealedIdx s).length).map
          (fun k : Nat => s.now + c.revealAllIntervalDelay * (k : ℚ))
    ∧ List.Pairwise (fun a b : ℚ => a < b) ((cascadeSched c s (some e)).map Ev.time) := by
  refine ⟨fisherYates_perm _ _, rfl, bombIdx_length c s (some e) henough, ?_,
    cascadeSched_targets c s (some e), cascadeSched_times c s (some e),
    cascadeSched_strictMono c s (some e) hd⟩
  intro b hb
  have h2 := availableIdx_mem s e (bombIdx_mem c s (some e) hb)
  exact ⟨h2.2, h2.1⟩

/-- Witness for C3 at the fresh 2 by 2 board with triggering tile 0. -/
theorem C3_revealAll_fisherYates_witness :
    ((mkInitial cfg2 2).mines - 1 ≤ (availableIdx (mkInitial cfg2 2) (some 0)).length
      ∧ 0 < cfg2.revealAllIntervalDelay)
    ∧ (bombIdx cfg2 (mkInitial cfg2 2) (some 0)).length = (mkInitial cfg2 2).mines - 1
    ∧ (cascadeSched cfg2 (mkInitial cfg2 2) (some 0)).map evTarget =
        unrevealedIdx (mkInitial cfg2 2) :=
  ⟨⟨by decide, by decide⟩,
   (C3_revealAll_fisherYates cfg2 (mkInitial cfg2 2) 0 (by decide) (by decide)).2.2.1,
   (C3_revealAll_fisherYates cfg2 (mkInitial cfg2 2) 0 (by decide) (by decide)).2.2.2.2.1⟩

/-- Boolean rendering of the tile-side condition claimed by the spec
invariant: a selected tile exists, is unrevealed and is not animating. -/
def selectionFlagsOk (s : GameState) : Bool :=
  match s.selectedTile with
  | some i =>
    match s.tiles[i]? with
    | some t => !t.revealed && !t.animating
    | none => false
  | none => false

/-- Pending deferred callbacks referenced by the concrete traces. -/
def cexE1 : Ev := { kind := EvKind.flipStart 0 Face.diamond true, time := 160 }

/-- Flip completion of the first confirm of tile 0. -/
def cexE2 : Ev := { kind := EvKind.flipComplete 0 Face.diamond true, time := 460 }

/-- Second flip start of tile 0, scheduled by the racing second confirm. -/
def c5E3 : Ev := { kind := EvKind.flipStart 0 Face.diamond true, time := 320 }

/-- Flip start of tile 1. -/
def c5E4 : Ev := { kind := EvKind.flipStart 1 Face.diamond true, time := 340 }

/-- First flip completion of tile 0. -/
def c5E5 : Ev := { kind := EvKind.flipComplete 0 Face.diamond true, time := 460 }

/-- Second flip completion of tile 0 (the double count). -/
def c5E6 : Ev := { kind := EvKind.flipComplete 0 Face.diamond true, time := 620 }

/-- Cascade timeout for tile 1 scheduled by the win cascade. -/
def c5E7 : Ev := { kind := EvKind.cascadeCall 1 Face.diamond, time := 620 }

/-- Player flip completion of tile 1, still pending at the win. -/
def c5E8 : Ev := { kind := EvKind.flipComplete 1 Face.diamond true, time := 640 }


/-- Trace state cexS1 of the concrete 2 by 2 run, written out as a literal. -/
def cexS1 : GameState :=
  { mines := 2,
    tiles := [{ row := 0, col := 0, revealed := false, animating := true, taped := true, wiggleEpoch := 1 },
              { row := 0, col := 1, revealed := false, animating := false, taped := false, wiggleEpoch := 0 },
              { row := 1, col := 0, revealed := false, animating := false, taped := false, wiggleEpoch := 0 },
              { row := 1, col := 1, revealed := false, animating := false, taped := false, wiggleEpoch := 0 }],
    gameOver := false,
    revealedSafe := 0,
    totalSafe := 2,
    waitingForChoice := true,
    selectedTile := some 0,
    bombPositions := [],
    pending := [{ kind := EvKind.wiggleComplete 0 1, time := 900 }],
    now := 0,
    randUses := 0,
    winFires := 0,
    gameOverFires := 0 }

unseal Rat.add Rat.sub Rat.mul Rat.inv in
/-- The state cexS1 is the value of its defining transition. -/
theorem cexS1_eq : pointertapHandler cfg2 0 { mkInitial cfg2 2 with now := 0 } = cexS1 := by decide

/-- Trace state cexS2 of the concrete 2 by 2 run, written out as a literal. -/
def cexS2 : GameState :=
  { mines := 2,
    tiles := [{ row := 0, col := 0, revealed := false, animating := false, taped := true, wiggleEpoch := 2 },
              { row := 0, col := 1, revealed := false, animating := false, taped := false, wiggleEpoch := 0 },
              { row := 1, col := 0, revealed := false, animating := false, taped := false, wiggleEpoch := 0 },
              { row := 1, col := 1, revealed := false, animating := false, taped := false, wiggleEpoch := 0 }],
    gameOver := false,
    revealedSafe := 0,
    totalSafe := 2,
    waitingForChoice := false,
    selectedTile := none,
    bombPositions := [],
    pending := [{ kind := EvKind.wiggleComplete 0 1, time := 900 },
                { kind := EvKind.flipStart 0 (Face.diamond) true, time := 160 }],
    now := 10,
    randUses := 0,
    winFires := 0,
    gameOverFires := 0 }

unseal Rat.add Rat.sub Rat.mul Rat.inv in
/-- The state cexS2 is the value of its defining transition. -/
theorem cexS2_eq : setSelectedCardIsDiamond cfg2 { cexS1 with now := 10 } = cexS2 := by decide

/-- Trace state cexS3 of the concrete 2 by 2 run, written out as a literal. -/
def cexS3 : GameState :=
  { mines := 2,
    tiles := [{ row := 0, col := 0, revealed := false, animating := true, taped := true, wiggleEpoch := 3 },
              { row := 0, col := 1, revealed := false, animating := false, taped := false, wiggleEpoch := 0 },
              { row := 1, col := 0, revealed := false, animating := false, taped := false, wiggleEpoch := 0 },
              { row := 1, col := 1, revealed := false, animating := false, taped := false, wiggleEpoch := 0 }],
    gameOver := false,
    revealedSafe := 0,
    totalSafe := 2,
    waitingForChoice := true,
    selectedTile := some 0,
    bombPositions := [],
    pending := [{ kind := EvKind.wiggleComplete 0 1, time := 900 },
                { kind := EvKind.flipStart 0 (Face.diamond) true, time := 160 },
                { kind := EvKind.wiggleComplete 0 3, time := 920 }],
    now := 20,
    randUses := 0,
    winFires := 0,
    gameOverFires := 0 }

unseal Rat.add Rat.sub Rat.mul Rat.inv in
/-- The state cexS3 is the value of its defining transition. -/
theorem cexS3_eq : pointertapHandler cfg2 0 { cexS2 with now := 20 } = cexS3 := by decide

/-- Trace state cexS4 of the concrete 2 by 2 run, written out as a literal. -/
def cexS4 : GameState :=
  { mines := 2,
    tiles := [{ row := 0, col := 0, revealed := false, animating := true, taped := true, wiggleEpoch := 4 },
              { row := 0, col := 1, revealed := false, animating := false, taped := false, wiggleEpoch := 0 },
              { row := 1, col := 0, revealed := false, animating := false, taped := false, wiggleEpoch := 0 },
              { row := 1, col := 1, revealed := false, animating := false, taped := false, wiggleEpoch := 0 }],
    gameOver := false,
    revealedSafe := 0,
    totalSafe := 2,
    waitingForChoice := true,
    selectedTile := some 0,
    bombPositions := [],
    pending := [{ kind := EvKind.wiggleComplete 0 1, time := 900 },
                { kind := EvKind.wiggleComplete 0 3, time := 920 },
                { kind := EvKind.flipComplete 0 (Face.diamond) true, time := 460 }],
    now := 160,
    randUses := 0,
    winFires := 0,
    gameOverFires := 0 }

unseal Rat.add Rat.sub Rat.mul Rat.inv in
/-- The state cexS4 is the value of its defining transition. -/
theorem cexS4_eq : fireEv cfg2 cexE1 { cexS3 with now := cexE1.time, pending := cexS3.pending.erase cexE1 } = cexS4 := by decide

/-- Trace state cexS5 of the concrete 2 by 2 run, written out as a literal. -/
def cexS5 : GameState :=
  { mines := 2,
    tiles := [{ row := 0, col := 0, revealed := true, animating := false, taped := true, wiggleEpoch := 5 },
              { row := 0, col := 1, revealed := false, animating := false, taped := false, wiggleEpoch := 0 },
              { row := 1, col := 0, revealed := false, animating := false, taped := false, wiggleEpoch := 0 },
              { row := 1, col := 1, revealed := false, animating := false, taped := false, wiggleEpoch := 0 }],
    gameOver := false,
    revealedSafe := 1,
    totalSafe := 2,
    waitingForChoice := true,
    selectedTile := some 0,
    bombPositions := [],
    pending := [{ kind := EvKind.wiggleComplete 0 1, time := 900 },
                { kind := EvKind.wiggleComplete 0 3, time := 920 }],
    now := 460,
    randUses := 0,
    winFires := 0,
    gameOverFires := 0 }

unseal Rat.add Rat.sub Rat.mul Rat.inv in
/-- The state cexS5 is the value of its defining transition. -/
theorem cexS5_eq : fireEv cfg2 cexE2 { cexS4 with now := cexE2.time, pending := cexS4.pending.erase cexE2 } = cexS5 := by decide

/-- Trace state c5S5 of the concrete 2 by 2 run, written out as a literal. -/
def c5S5 : GameState :=
  { mines := 2,
    tiles := [{ row := 0, col := 0, revealed := false, animating := false, taped := true, wiggleEpoch := 5 },
              { row := 0, col := 1, revealed := false, animating := false, taped := false, wiggleEpoch := 0 },
              { row := 1, col := 0, revealed := false, animating := false, taped := false, wiggleEpoch := 0 },
              { row := 1, col := 1, revealed := false, animating := false, taped := false, wiggleEpoch := 0 }],
    gameOver := false,
    revealedSafe := 0,
    totalSafe := 2,
    waitingForChoice := false,
    selectedTile := none,
    bombPositions := [],
    pending := [{ kind := EvKind.wiggleComplete 0 1, time := 900 },
                { kind := EvKind.wiggleComplete 0 3, time := 920 },
                { kind := EvKind.flipComplete 0 (Face.diamond) true, time := 460 },
                { kind := EvKind.flipStart 0 (Face.diamond) true, time := 320 }],
    now := 170,
    randUses := 0,
    winFires := 0,
    gameOverFires := 0 }

unseal Rat.add Rat.sub Rat.mul Rat.inv in
/-- The state c5S5 is the value of its defining transition. -/
theorem c5S5_eq : setSelectedCardIsDiamond cfg2 { cexS4 with now := 170 } = c5S5 := by decide

/-- Trace state c5S6 of the concrete 2 by 2 run, written out as a literal. -/
def c5S6 : GameState :=
  { mines := 2,
    tiles := [{ row := 0, col := 0, revealed := false, animating := false, taped := true, wiggleEpoch := 5 },
              { row := 0, col := 1, revealed := false, animating := true, taped := true, wiggleEpoch := 1 },
              { row := 1, col := 0, revealed := false, animating := false, taped := false, wiggleEpoch := 0 },
              { row := 1, col := 1, revealed := false, animating := false, taped := false, wiggleEpoch := 0 }],
    gameOver := false,
    revealedSafe := 0,
    totalSafe := 2,
    waitingForChoice := true,
    selectedTile := some 1,
    bombPositions := [],
    pending := [{ kind := EvKind.wiggleComplete 0 1, time := 900 },
                { kind := EvKind.wiggleComplete 0 3, time := 920 },
                { kind := EvKind.flipComplete 0 (Face.diamond) true, time := 460 },
                { kind := EvKind.flipStart 0 (Face.diamond) true, time := 320 },
                { kind := EvKind.wiggleComplete 1 1, time := 1080 }],
    now := 180,
    randUses := 0,
    winFires := 0,
    gameOverFires := 0 }

unseal Rat.add Rat.sub Rat.mul Rat.inv in
/-- The state c5S6 is the value of its defining transition. -/
theorem c5S6_eq : pointertapHandler cfg2 1 { c5S5 with now := 180 } = c5S6 := by decide

/-- Trace state c5S7 of the concrete 2 by 2 run, written out as a literal. -/
def c5S7 : GameState :=
  { mines := 2,
    tiles := [{ row := 0, col := 0, revealed := false, animating := false, taped := true, wiggleEpoch := 5 },
              { row := 0, col := 1, revealed := false, animating := false, taped := true, wiggleEpoch := 2 },
              { row := 1, col := 0, revealed := false, animating := false, taped := false, wiggleEpoch := 0 },
              { row := 1, col := 1, revealed := false, animating := false, taped := false, wiggleEpoch := 0 }],
    gameOver := false,
    revealedSafe := 0,
    totalSafe := 2,
    waitingForChoice := false,
    selectedTile := none,
    bombPositions := [],
    pending := [{ kind := EvKind.wiggleComplete 0 1, time := 900 },
                { kind := EvKind.wiggleComplete 0 3, time := 920 },
                { kind := EvKind.flipComplete 0 (Face.diamond) true, time := 460 },
                { kind := EvKind.flipStart 0 (Face.diamond) true, time := 320 },
                { kind := EvKind.wiggleComplete 1 1, time := 1080 },
                { kind := EvKind.flipStart 1 (Face.diamond) true, time := 340 }],
    now := 190,
    randUses := 0,
    winFires := 0,
    gameOverFires := 0 }

unseal Rat.add Rat.sub Rat.mul Rat.inv in
/-- The state c5S7 is the value of its defining transition. -/
theorem c5S7_eq : setSelectedCardIsDiamond cfg2 { c5S6 with now := 190 } = c5S7 := by decide

/-- Trace state c5S8 of the concrete 2 by 2 run, written out as a literal. -/
def c5S8 : GameState :=
  { mines := 2,
    tiles := [{ row := 0, col := 0, revealed := false, animating := true, taped := true, wiggleEpoch := 6 },
              { row := 0, col := 1, revealed := false, animating := false, taped := true, wiggleEpoch := 2 },
              { row := 1, col := 0, revealed := false, animating := false, taped := false, wiggleEpoch := 0 },
              { row := 1, col := 1, revealed := false, animating := false, taped := false, wiggleEpoch := 0 }],
    gameOver := false,
    revealedSafe := 0,
    totalSafe := 2,
    waitingForChoice := false,
    selectedTile := none,
    bombPositions := [],
    pending := [{ kind := EvKind.wiggleComplete 0 1, time := 900 },
                { kind := EvKind.wiggleComplete 0 3, time := 920 },
                { kind := EvKind.flipComplete 0 (Face.diamond) true, time := 460 },
                { kind := EvKind.wiggleComplete 1 1, time := 1080 },
                { kind := EvKind.flipStart 1 (Face.diamond) true, time := 340 },
                { kind := EvKind.flipComplete 0 (Face.diamond) true, time := 620 }],
    now := 320,
    randUses := 0,
    winFires := 0,
    gameOverFires := 0 }

unseal Rat.add Rat.sub Rat.mul Rat.inv in
/-- The state c5S8 is the value of its defining transition. -/
theorem c5S8_eq : fireEv cfg2 c5E3 { c5S7 with now := c5E3.time, pending := c5S7.pending.erase c5E3 } = c5S8 := by decide

/-- Trace state c5S9 of the concrete 2 by 2 run, written out as a literal. -/
def c5S9 : GameState :=
  { mines := 2,
    tiles := [{ row := 0, col := 0, revealed := false, animating := true, taped := true, wiggleEpoch := 6 },
              { row := 0, col := 1, revealed := false, animating := true, taped := true, wiggleEpoch := 3 },
              { row := 1, col := 0, revealed := false, animating := false, taped := false, wiggleEpoch := 0 },
              { row := 1, col := 1, revealed := false, animating := false, taped := false, wiggleEpoch := 0 }],
    gameOver := false,
    revealedSafe := 0,
    totalSafe := 2,
    waitingForChoice := false,
    selectedTile := none,
    bombPositions := [],
    pending := [{ kind := EvKind.wiggleComplete 0 1, time := 900 },
                { kind := EvKind.wiggleComplete 0 3, time := 920 },
                { kind := EvKind.flipComplete 0 (Face.diamond) true, time := 460 },
                { kind := EvKind.wiggleComplete 1 1, time := 1080 },
                { kind := EvKind.flipComplete 0 (Face.diamond) true, time := 620 },
                { kind := EvKind.flipComplete 1 (Face.diamond) true, time := 640 }],
    now := 340,
    randUses := 0,
    winFires := 0,
    gameOverFires := 0 }

unseal Rat.add Rat.sub Rat.mul Rat.inv in
/-- The state c5S9 is the value of its defining transition. -/
theorem c5S9_eq : fireEv cfg2 c5E4 { c5S8 with now := c5E4.time, pending := c5S8.pending.erase c5E4 } = c5S9 := by decide

/-- Trace state c5S10 of the concrete 2 by 2 run, written out as a literal. -/
def c5S10 : GameState :=
  { mines := 2,
    tiles := [{ row := 0, col := 0, revealed := true, animating := false, taped := true, wiggleEpoch := 7 },
              { row := 0, col := 1, revealed := false, animating := true, taped := true, wiggleEpoch := 3 },
              { row := 1, col := 0, revealed := false, animating := false, taped := false, wiggleEpoch := 0 },
              { row := 1, col := 1, revealed := false, animating := false, taped := false, wiggleEpoch := 0 }],
    gameOver := false,
    revealedSafe := 1,
    totalSafe := 2,
    waitingForChoice := false,
    selectedTile := none,
    bombPositions := [],
    pending := [{ kind := EvKind.wiggleComplete 0 1, time := 900 },
                { kind := EvKind.wiggleComplete 0 3, time := 920 },
                { kind := EvKind.wiggleComplete 1 1, time := 1080 },
                { kind := EvKind.flipComplete 0 (Face.diamond) true, time := 620 },
                { kind := EvKind.flipComplete 1 (Face.diamond) true, time := 640 }],
    now := 460,
    randUses := 0,
    winFires := 0,
    gameOverFires := 0 }

unseal Rat.add Rat.sub Rat.mul Rat.inv in
/-- The state c5S10 is the value of its defining transition. -/
theorem c5S10_eq : fireEv cfg2 c5E5 { c5S9 with now := c5E5.time, pending := c5S9.pending.erase c5E5 } = c5S10 := by decide

/-- Trace state c5S11 of the concrete 2 by 2 run, written out as a literal. -/
def c5S11 : GameState :=
  { mines := 2,
    tiles := [{ row := 0, col := 0, revealed := true, animating := false, taped := true, wiggleEpoch := 8 },
              { row := 0, col := 1, revealed := false, animating := true, taped := true, wiggleEpoch := 3 },
              { row := 1, col := 0, revealed := false, animating := false, taped := false, wiggleEpoch := 0 },
              { row := 1, col := 1, revealed := false, animating := false, taped := false, wiggleEpoch := 0 }],
    gameOver := true,
    revealedSafe := 2,
    totalSafe := 2,
    waitingForChoice := false,
    selectedTile := none,
    bombPositions := [(1, 0)],
    pending := [{ kind := EvKind.wiggleComplete 0 1, time := 900 },
                { kind := EvKind.wiggleComplete 0 3, time := 920 },
                { kind := EvKind.wiggleComplete 1 1, time := 1080 },
                { kind := EvKind.flipComplete 1 (Face.diamond) true, time := 640 },
                { kind := EvKind.cascadeCall 1 (Face.diamond), time := 620 },
                { kind := EvKind.cascadeCall 2 (Face.bomb), time := 660 },
                { kind := EvKind.cascadeCall 3 (Face.diamond), time := 700 }],
    now := 620,
    randUses := 1,
    winFires := 1,
    gameOverFires := 0 }

unseal Rat.add Rat.sub Rat.mul Rat.inv in
/-- The state c5S11 is the value of its defining transition. -/
theorem c5S11_eq : fireEv cfg2 c5E6 { c5S10 with now := c5E6.time, pending := c5S10.pending.erase c5E6 } = c5S11 := by decide

/-- Trace state c5S12 of the concrete 2 by 2 run, written out as a literal. -/
def c5S12 : GameState :=
  { mines := 2,
    tiles := [{ row := 0, col := 0, revealed := true, animating := false, taped := true, wiggleEpoch := 8 },
              { row := 0, col := 1, revealed := false, animating := true, taped := true, wiggleEpoch := 3 },
              { row := 1, col := 0, revealed := false, animating := false, taped := false, wiggleEpoch := 0 },
              { row := 1, col := 1, revealed := false, animating := false, taped := false, wiggleEpoch := 0 }],
    gameOver := true,
    revealedSafe := 2,
    totalSafe := 2,
    waitingForChoice := false,
    selectedTile := none,
    bombPositions := [(1, 0)],
    pending := [{ kind := EvKind.wiggleComplete 0 1, time := 900 },
                { kind := EvKind.wiggleComplete 0 3, time := 920 },
                { kind := EvKind.wiggleComplete 1 1, time := 1080 },
                { kind := EvKind.flipComplete 1 (Face.diamond) true, time := 640 },
                { kind := EvKind.cascadeCall 2 (Face.bomb), time := 660 },
                { kind := EvKind.cascadeCall 3 (Face.diamond), time := 700 }],
    now := 620,
    randUses := 1,
    winFires := 1,
    gameOverFires := 0 }

unseal Rat.add Rat.sub Rat.mul Rat.inv in
/-- The state c5S12 is the value of its defining transition. -/
theorem c5S12_eq : fireEv cfg2 c5E7 { c5S11 with now := c5E7.time, pending := c5S11.pending.erase c5E7 } = c5S12 := by decide

/-- Trace state c5S13 of the concrete 2 by 2 run, written out as a literal. -/
def c5S13 : GameState :=
  { mines := 2,
    tiles := [{ row := 0, col := 0, revealed := true, animating := false, taped := true, wiggleEpoch := 8 },
              { row := 0, col := 1, revealed := true, animating := false, taped := true, wiggleEpoch := 4 },
              { row := 1, col := 0, revealed := false, animating := false, taped := false, wiggleEpoch := 0 },
              { row := 1, col := 1, revealed := false, animating := false, taped := false, wiggleEpoch := 0 }],
    gameOver := true,
    revealedSafe := 3,
    totalSafe := 2,
    waitingForChoice := false,
    selectedTile := none,
    bombPositions := [(1, 0), (1, 1)],
    pending := [{ kind := EvKind.wiggleComplete 0 1, time := 900 },
                { kind := EvKind.wiggleComplete 0 3, time := 920 },
                { kind := EvKind.wiggleComplete 1 1, time := 1080 },
                { kind := EvKind.cascadeCall 2 (Face.bomb), time := 660 },
                { kind := EvKind.cascadeCall 3 (Face.diamond), time := 700 },
                { kind := EvKind.cascadeCall 2 (Face.bomb), time := 640 },
                { kind := EvKind.cascadeCall 3 (Face.bomb), time := 680 }],
    now := 640,
    randUses := 2,
    winFires := 2,
    gameOverFires := 0 }

unseal Rat.add Rat.sub Rat.mul Rat.inv in
/-- The state c5S13 is the value of its defining transition. -/
theorem c5S13_eq : fireEv cfg2 c5E8 { c5S12 with now := c5E8.time, pending := c5S12.pending.erase c5E8 } = c5S13 := by decide


/-- Reachability of the tap / confirm / retap / flip trace: every user input
arrives no later than each pending timeout, and every deferred callback
fires at its nominal time, in time order. -/
theorem cexS5_reachable :
    Reachable cfg2 2 cexS1 ∧ Reachable cfg2 2 cexS5 := by
  have h1 : Reachable cfg2 2 cexS1 := by
    rw [← cexS1_eq]
    exact Reachable.step Reachable.init (Step.tap (mkInitial cfg2 2) 0 0 (by decide) (by decide))
  have h2 : Reachable cfg2 2 cexS2 := by
    rw [← cexS2_eq]
    exact Reachable.step h1 (Step.confirmDiamond cexS1 10 (by decide) (by decide))
  have h3 : Reachable cfg2 2 cexS3 := by
    rw [← cexS3_eq]
    exact Reachable.step h2 (Step.tap cexS2 0 20 (by decide) (by decide))
  have h4 : Reachable cfg2 2 cexS4 := by
    rw [← cexS4_eq]
    exact Reachable.step h3 (Step.fire cexS3 cexE1 (by decide) (by decide) (by decide))
  have h5 : Reachable cfg2 2 cexS5 := by
    rw [← cexS5_eq]
    exact Reachable.step h4 (Step.fire cexS4 cexE2 (by decide) (by decide) (by decide))
  exact ⟨h1, h5⟩

/-- Claim C2, counterexample: the claimed invariant fails in two reachable
states of the 2 by 2 default-option game. Immediately after a tap the
machine waits while the selected tile is wiggling (animating true), and
after the tap-confirm-retap race of the trace above the machine waits while
the selected tile is already revealed; in both states waitingForChoice is
true but the claimed right-hand side is false. -/
theorem C2_counterexample :
    (Reachable cfg2 2 cexS1 ∧ cexS1.waitingForChoice = true
      ∧ selectionFlagsOk cexS1 = false
      ∧ ∃ t, cexS1.selectedTile = some 0 ∧ cexS1.tiles[0]? = some t ∧ t.animating = true)
    ∧ (Reachable cfg2 2 cexS5 ∧ cexS5.waitingForChoice = true
      ∧ selectionFlagsOk cexS5 = false
      ∧ ∃ t, cexS5.selectedTile = some 0 ∧ cexS5.tiles[0]? = some t ∧ t.revealed = true) := by
  obtain ⟨h1, h5⟩ := cexS5_reachable
  refine ⟨⟨h1, by decide, by decide, ?_⟩, ⟨h5, by decide, by decide, ?_⟩⟩
  · exact ⟨{ row := 0, col := 0, revealed := false, animating := true, taped := true, wiggleEpoch := 1 }, by decide, by decide, by decide⟩
  · exact ⟨{ row := 0, col := 0, revealed := true, animating := false, taped := true, wiggleEpoch := 5 }, by decide, by decide, by decide⟩

/-- Claim C2, amended: in every reachable state, waitingForChoice is true
exactly when a tile is selected; the selected tile need not be unrevealed or
idle — it is wiggling right after the tap, and in the retap race it can even
be revealed while the machine still waits. -/
theorem C2_waiting_iff_selected (c : Config) (m : Int) (s : GameState)
    (h : Reachable c m s) : s.waitingForChoice = s.selectedTile.isSome := by
  induction h with
  | init => rfl
  | step hr hst ih => exact hst.waitSel ih

/-- Witness for the amended C2 at a concrete reachable state. -/
theorem C2_waiting_iff_selected_witness :
    Reachable cfg2 2 cexS1 ∧ cexS1.waitingForChoice = cexS1.selectedTile.isSome :=
  ⟨cexS5_reachable.1, C2_waiting_iff_selected cfg2 2 cexS1 cexS5_reachable.1⟩

/-- Claim C5, failing trace: the state c5S13 is reachable within a single
game of the 2 by 2 default-option machine, yet revealedSafe = 3 exceeds
totalSafe = 2, and the win callback has fired twice. Every event of the
trace fires at its nominal timeout/tween time, in time order, so the trace
is a real scheduling of the source (the decisive race windows are the 150 ms
flip delay and the 300 ms flip duration). The cause: a tile whose flip is
still a pending timeout can be tapped and confirmed again — the confirm
opening stopWiggle clears the animating flag even when it was set by the
flip — so the same tile is revealed twice and revealedSafe is incremented
twice; a still-pending player flip then completes after the win and pushes
revealedSafe past totalSafe. The monotonicity part of the claim and the fact
that cascade reveals never increment revealedSafe are unaffected. -/
theorem C5_revealedSafe_overflow_trace :
    Reachable cfg2 2 c5S13
    ∧ c5S13.totalSafe = 2
    ∧ c5S13.revealedSafe = 3
    ∧ ¬((c5S13.revealedSafe : Int) ≤ c5S13.totalSafe)
    ∧ c5S13.winFires = 2 := by
  have h1 : Reachable cfg2 2 cexS1 := by
    rw [← cexS1_eq]
    exact Reachable.step Reachable.init (Step.tap (mkInitial cfg2 2) 0 0 (by decide) (by decide))
  have h2 : Reachable cfg2 2 cexS2 := by
    rw [← cexS2_eq]
    exact Reachable.step h1 (Step.confirmDiamond cexS1 10 (by decide) (by decide))
  have h3 : Reachable cfg2 2 cexS3 := by
    rw [← cexS3_eq]
    exact Reachable.step h2 (Step.tap cexS2 0 20 (by decide) (by decide))
  have h4 : Reachable cfg2 2 cexS4 := by
    rw [← cexS4_eq]
    exact Reachable.step h3 (Step.fire cexS3 cexE1 (by decide) (by decide) (by decide))
  have h5 : Reachable cfg2 2 c5S5 := by
    rw [← c5S5_eq]
    exact Reachable.step h4 (Step.confirmDiamond cexS4 170 (by decide) (by decide))
  have h6 : Reachable cfg2 2 c5S6 := by
    rw [← c5S6_eq]
    exact Reachable.step h5 (Step.tap c5S5 1 180 (by decide) (by decide))
  have h7 : Reachable cfg2 2 c5S7 := by
    rw [← c5S7_eq]
    exact Reachable.step h6 (Step.confirmDiamond c5S6 190 (by decide) (by decide))
  have h8 : Reachable cfg2 2 c5S8 := by
    rw [← c5S8_eq]
    exact Reachable.step h7 (Step.fire c5S7 c5E3 (by decide) (by decide) (by decide))
  have h9 : Reachable cfg2 2 c5S9 := by
    rw [← c5S9_eq]
    exact Reachable.step h8 (Step.fire c5S8 c5E4 (by decide) (by decide) (by decide))
  have h10 : Reachable cfg2 2 c5S10 := by
    rw [← c5S10_eq]
    exact Reachable.step h9 (Step.fire c5S9 c5E5 (by decide) (by decide) (by decide))
  have h11 : Reachable cfg2 2 c5S11 := by
    rw [← c5S11_eq]
    exact Reachable.step h10 (Step.fire c5S10 c5E6 (by decide) (by decide) (by decide))
  have h12 : Reachable cfg2 2 c5S12 := by
    rw [← c5S12_eq]
    exact Reachable.step h11 (Step.fire c5S11 c5E7 (by decide) (by decide) (by decide))
  have h13 : Reachable cfg2 2 c5S13 := by
    rw [← c5S13_eq]
    exact Reachable.step h12 (Step.fire c5S12 c5E8 (by decide) (by decide) (by decide))
  exact ⟨h13, by decide, by decide, by decide, by decide⟩

/-- Degenerate configuration with a single-cell grid, reachable through the
unvalidated opts.grid option. -/
def cfg1 : Config :=
  { grid := 1, wiggleSelectionEnabled := true, wiggleSelectionDuration := 900,
    flipDelayMin := 150, flipDelayMax := 500, flipDuration := 300,
    revealAllIntervalDelay := 40, rand := fun _ _ => 0 }

/-- Claim C7, counterexample: on a 1 by 1 grid the claimed bound
mines ≤ grid * grid − 1 = 0 fails after setMines(1): the lower clamp
Math.max(1, ...) wins and leaves mines = 1. -/
theorem C7_counterexample :
    ¬(((setMines cfg1 (JSNum.finite 1) (mkInitial cfg1 1)).mines : Int) ≤
        (cfg1.grid : Int) * cfg1.grid - 1) := by decide

/-- Claim C7, amended: for every input n — out of range, negative,
fractional or non-numeric — setMines(n) leaves mines at least 1, and at most
grid * grid − 1 whenever the grid has at least two rows (for grid ≤ 1 the
lower clamp forces mines = 1 above the claimed ceiling); the call then
behaves as reset(): revealedSafe = 0, totalSafe = grid * grid − mines,
gameOver = false, waitingForChoice = false, selectedTile = null. -/
theorem C7_setMines_clamps_and_resets (c : Config) (n : JSNum) (s : GameState) :
    1 ≤ (setMines c n s).mines
    ∧ (2 ≤ c.grid → ((setMines c n s).mines : Int) ≤ (c.grid : Int) * c.grid - 1)
    ∧ (setMines c n s).revealedSafe = 0
    ∧ (setMines c n s).totalSafe = (c.grid : Int) * c.grid - (setMines c n s).mines
    ∧ (setMines c n s).gameOver = false
    ∧ (setMines c n s).waitingForChoice = false
    ∧ (setMines c n s).selectedTile = none := by
  have hlow : (1 : Int) ≤ max 1 (min (toInt32 n) ((c.grid : Int) * c.grid - 1)) :=
    le_max_left _ _
  refine ⟨?_, ?_, rfl, rfl, rfl, rfl, rfl⟩
  · show 1 ≤ clampMines c.grid (toInt32 n)
    unfold clampMines
    omega
  · intro hg
    show ((clampMines c.grid (toInt32 n) : Nat) : Int) ≤ (c.grid : Int) * c.grid - 1
    have hg2 : (2 : Int) ≤ (c.grid : Int) := by exact_mod_cast hg
    have hceil : (1 : Int) ≤ (c.grid : Int) * c.grid - 1 := by nlinarith
    have hmin : min (toInt32 n) ((c.grid : Int) * c.grid - 1) ≤ (c.grid : Int) * c.grid - 1 :=
      min_le_right _ _
    have hup : max 1 (min (toInt32 n) ((c.grid : Int) * c.grid - 1)) ≤
        (c.grid : Int) * c.grid - 1 := max_le hceil hmin
    unfold clampMines
    omega

unseal Rat.add Rat.sub Rat.mul Rat.inv in
/-- Witness for the amended C7: setMines(−3.5) on the 2 by 2 board (the
fractional negative input truncates to −3 and clamps to 1). -/
theorem C7_setMines_clamps_and_resets_witness :
    2 ≤ cfg2.grid
    ∧ 1 ≤ (setMines cfg2 (JSNum.finite (-7 / 2)) (mkInitial cfg2 2)).mines
    ∧ ((setMines cfg2 (JSNum.finite (-7 / 2)) (mkInitial cfg2 2)).mines : Int) ≤
        (cfg2.grid : Int) * cfg2.grid - 1
    ∧ (setMines cfg2 (JSNum.finite (-7 / 2)) (mkInitial cfg2 2)).gameOver = false
    ∧ (setMines cfg2 (JSNum.finite (-7 / 2)) (mkInitial cfg2 2)).mines = 1 :=
  ⟨by decide,
   (C7_setMines_clamps_and_resets cfg2 (JSNum.finite (-7 / 2)) (mkInitial cfg2 2)).1,
   (C7_setMines_clamps_and_resets cfg2 (JSNum.finite (-7 / 2)) (mkInitial cfg2 2)).2.1 (by decide),
   (C7_setMines_clamps_and_resets cfg2 (JSNum.finite (-7 / 2)) (mkInitial cfg2 2)).2.2.2.2.1,
   by decide⟩

/-- Hover face color of the palette (PALETTE.hover). -/
def hoverColor : Nat := 0xDFE0AC

/-- Base face color of the palette (PALETTE.tileBase, also PALETTE.tileInset). -/
def tileBaseColor : Nat := 0xE3E552

/-- Pressed tint of the palette (PALETTE.pressedTint). -/
def pressedTintColor : Nat := 0x7a7a7a

/-- Default tint of the palette (PALETTE.defaultTint). -/
def defaultTintColor : Nat := 0xffffff

/-- Visual-layer view of one tile: the fields read and written by hoverTile
and its callers — flags, the hover cancellation token (an epoch, as for the
wiggle token), the wrapper scale and skew, the vertical position against the
stored base position, the two face colors redrawn by flipFace/flipInset, and
the two tints. -/
structure VTile where
  revealed : Bool
  animating : Bool
  pressed : Bool
  hoverToken : Nat
  scale : ℚ
  skew : ℚ
  y : ℚ
  baseY : ℚ
  faceColor : Nat
  insetColor : Nat
  cardTint : Nat
  insetTint : Nat
deriving DecidableEq, Repr

/-- Tween registered by hoverTile: its captured token and the terminal scale,
skew and height it writes on update/completion while the token matches. -/
structure HoverTween where
  token : Nat
  endScale : ℚ
  endSkew : ℚ
  endY : ℚ
  enter : Bool
deriving DecidableEq, Repr

/-- The hoverTile(tile, on) effect: rejected when the effect is disabled or
the tile is animating; otherwise it installs a fresh hover token, redraws
both faces in the hover or base color at once, and registers the tween
moving scale, skew and height toward the hover or rest pose. -/
def hoverTile (hoverEnabled : Bool) (hoverSkewAmount : ℚ) (onFlag : Bool) (vt : VTile) :
    VTile × Option HoverTween :=
  if !hoverEnabled || vt.animating then (vt, none)
  else
    let token := vt.hoverToken + 1
    let endScale : ℚ := if onFlag then 103 / 100 else 1
    let endSkew : ℚ := if onFlag then hoverSkewAmount else 0
    let endY : ℚ := if onFlag then vt.baseY - 3 else vt.baseY
    let fc : Nat := if onFlag then hoverColor else tileBaseColor
    ({ vt with hoverToken := token, faceColor := fc, insetColor := fc },
     some { token := token, endScale := endScale, endSkew := endSkew, endY := endY, enter := onFlag })

/-- The pointerover handler of createTile: rejected when no more than mines
untapped tiles remain, and guarded on gameOver, waitingForChoice, revealed,
animating and being the selected tile; on success it hovers in and applies
the pressed tint when the tile is held down. -/
def pointeroverHover (hoverEnabled : Bool) (hoverSkewAmount : ℚ)
    (gameOver waiting selfSelected untapedLeMines : Bool) (vt : VTile) :
    VTile × Option HoverTween :=
  if untapedLeMines then (vt, none)
  else if !gameOver && !waiting && !vt.revealed && !vt.animating && !selfSelected then
    let r := hoverTile hoverEnabled hoverSkewAmount true vt
    (if r.1.pressed then
        { r.1 with insetTint := pressedTintColor, cardTint := pressedTintColor }
      else r.1, r.2)
  else (vt, none)

/-- The pointerout handler of createTile: guarded on revealed, animating and
being the selected tile; on success it hovers out and clears the pressed
visuals. -/
def pointeroutHover (hoverEnabled : Bool) (hoverSkewAmount : ℚ) (selfSelected : Bool)
    (vt : VTile) : VTile × Option HoverTween :=
  if !vt.revealed && !vt.animating && !selfSelected then
    let r := hoverTile hoverEnabled hoverSkewAmount false vt
    (if r.1.pressed then
        { r.1 with pressed := false, insetTint := defaultTintColor, cardTint := defaultTintColor }
      else r.1, r.2)
  else (vt, none)

/-- The hover-out performed by the pointertap handler after its guard
(gameOver, waitingForChoice, revealed, animating, untapped count). -/
def pointertapHover (hoverEnabled : Bool) (hoverSkewAmount : ℚ)
    (gameOver waiting untapedLeMines : Bool) (vt : VTile) : VTile × Option HoverTween :=
  if gameOver || waiting || vt.revealed || vt.animating || untapedLeMines then (vt, none)
  else hoverTile hoverEnabled hoverSkewAmount false vt

/-- The visual part of clearSelection on the selected tile: when a tile is
selected and unrevealed, hover it out and reset the inset tint to white. -/
def clearSelectionHover (hoverEnabled : Bool) (hoverSkewAmount : ℚ) (isSelected : Bool)
    (vt : VTile) : VTile × Option HoverTween :=
  if isSelected && !vt.revealed then
    let r := hoverTile hoverEnabled hoverSkewAmount false vt
    ({ r.1 with insetTint := defaultTintColor }, r.2)
  else (vt, none)

/-- hoverTile rejects an animating tile outright. -/
theorem hoverTile_noop_of_animating (he : Bool) (sk : ℚ) (onFlag : Bool) (vt : VTile)
    (ha : vt.animating = true) : hoverTile he sk onFlag vt = (vt, none) := by
  unfold hoverTile
  simp [ha]

/-- Geometry and face colors of a tile are untouched by pointerover when the
tile is revealed or animating, and no hover tween is registered. -/
theorem pointeroverHover_noop (he : Bool) (sk : ℚ) (go wa ss um : Bool) (vt : VTile)
    (h : vt.revealed = true ∨ vt.animating = true) :
    pointeroverHover he sk go wa ss um vt = (vt, none) := by
  unfold pointeroverHover
  rcases h with h | h <;> simp [h]

/-- Geometry and face colors of a tile are untouched by pointerout when the
tile is revealed or animating, and no hover tween is registered. -/
theorem pointeroutHover_noop (he : Bool) (sk : ℚ) (ss : Bool) (vt : VTile)
    (h : vt.revealed = true ∨ vt.animating = true) :
    pointeroutHover he sk ss vt = (vt, none) := by
  unfold pointeroutHover
  rcases h with h | h <;> simp [h]

/-- Geometry and face colors of a tile are untouched by the tap hover-out
when the tile is revealed or animating, and no hover tween is registered. -/
theorem pointertapHover_noop (he : Bool) (sk : ℚ) (go wa um : Bool) (vt : VTile)
    (h : vt.revealed = true ∨ vt.animating = true) :
    pointertapHover he sk go wa um vt = (vt, none) := by
  unfold pointertapHover
  rcases h with h | h <;> simp [h]

/-- clearSelection on a revealed or animating selected tile changes at most
the inset tint: scale, skew, height and both face colors stay, and no hover
tween is registered. -/
theorem clearSelectionHover_noop (he : Bool) (sk : ℚ) (isSel : Bool) (vt : VTile)
    (h : vt.revealed = true ∨ vt.animating = true) :
    (clearSelectionHover he sk isSel vt).1.scale = vt.scale
    ∧ (clearSelectionHover he sk isSel vt).1.skew = vt.skew
    ∧ (clearSelectionHover he sk isSel vt).1.y = vt.y
    ∧ (clearSelectionHover he sk isSel vt).1.faceColor = vt.faceColor
    ∧ (clearSelectionHover he sk isSel vt).1.insetColor = vt.insetColor
    ∧ (clearSelectionHover he sk isSel vt).2 = none := by
  unfold clearSelectionHover
  rcases h with h | h
  · simp [h]
  · rw [hoverTile_noop_of_animating he sk false vt h]
    by_cases hs : (isSel && !vt.revealed) = true
    · simp [hs]
    · simp [hs]

/-- Claim C8: for every tile that is mid-flip (animating) or already
revealed, every call path into the hover effect — the pointerover and
pointerout handlers, the hover-out of the tap handler, the clearSelection
hover-out, and a direct hoverTile call on an animating tile — leaves the
tile's scale, skew, vertical position and both face colors unchanged and
registers no hover tween: the hover never runs on such a tile. -/
theorem C8_hover_never_runs_on_revealed_or_animating (he : Bool) (sk : ℚ)
    (go wa ss um isSel : Bool) (vt : VTile)
    (h : vt.revealed = true ∨ vt.animating = true) :
    pointeroverHover he sk go wa ss um vt = (vt, none)
    ∧ pointeroutHover he sk ss vt = (vt, none)
    ∧ pointertapHover he sk go wa um vt = (vt, none)
    ∧ ((clearSelectionHover he sk isSel vt).1.scale = vt.scale
        ∧ (clearSelectionHover he sk isSel vt).1.skew = vt.skew
        ∧ (clearSelectionHover he sk isSel vt).1.y = vt.y
        ∧ (clearSelectionHover he sk isSel vt).1.faceColor = vt.faceColor
        ∧ (clearSelectionHover he sk isSel vt).1.insetColor = vt.insetColor
        ∧ (clearSelectionHover he sk isSel vt).2 = none)
    ∧ (vt.animating = true → ∀ onFlag, hoverTile he sk onFlag vt = (vt, none)) :=
  ⟨pointeroverHover_noop he sk go wa ss um vt h,
   pointeroutHover_noop he sk ss vt h,
   pointertapHover_noop he sk go wa um vt h,
   clearSelectionHover_noop he sk isSel vt h,
   fun ha onFlag => hoverTile_noop_of_animating he sk onFlag vt ha⟩

/-- Concrete mid-flip tile for the C8 witness. -/
def midFlipTile : VTile :=
  { revealed := false, animating := true, pressed := false, hoverToken := 3,
    scale := 1, skew := 0, y := 40, baseY := 40, faceColor := tileBaseColor,
    insetColor := tileBaseColor, cardTint := defaultTintColor, insetTint := defaultTintColor }

/-- Witness for C8 on a concrete mid-flip tile. -/
theorem C8_hover_never_runs_on_revealed_or_animating_witness :
    (midFlipTile.revealed = true ∨ midFlipTile.animating = true)
    ∧ pointeroverHover true (2 / 100) false false false false midFlipTile = (midFlipTile, none)
    ∧ hoverTile true (2 / 100) true midFlipTile = (midFlipTile, none) :=
  ⟨Or.inr (by decide),
   (C8_hover_never_runs_on_revealed_or_animating true (2 / 100) false false false false false
      midFlipTile (Or.inr (by decide))).1,
   (C8_hover_never_runs_on_revealed_or_animating true (2 / 100) false false false false false
      midFlipTile (Or.inr (by decide))).2.2.2.2 (by decide) true⟩

/-- Next cascade-face predicate: deferred callbacks of the cascade that will
flip a bomb face. -/
def isBombCascade (ev : Ev) : Bool :=
  match ev.kind with
  | EvKind.cascadeCall _ Face.bomb => true
  | _ => false

/-- The bombPositions fold is the fold of the mapped keys. -/
theorem newBombKeys_eq_foldl_map (c : Config) (s : GameState) (excl : Option Nat) :
    newBombKeys c s excl =
      ((bombIdx c s excl).map (keyAt s)).foldl insertKey s.bombPositions := by
  unfold newBombKeys
  rw [List.foldl_map]

/-- Membership after folding insertKey: exactly the old members and the
inserted keys. -/
theorem mem_foldl_insertKey (ks : List (Nat × Nat)) (acc : List (Nat × Nat)) (x : Nat × Nat) :
    x ∈ ks.foldl insertKey acc ↔ x ∈ acc ∨ x ∈ ks := by
  induction ks generalizing acc with
  | nil => simp
  | cons k ks ih =>
    rw [List.foldl_cons, ih]
    unfold insertKey
    by_cases hc : acc.contains k = true
    · have hk : k ∈ acc := List.elem_iff.mp hc
      rw [if_pos hc]
      simp only [List.mem_cons]
      constructor
      · rintro (h | h)
        · exact Or.inl h
        · exact Or.inr (Or.inr h)
      · rintro (h | h | h)
        · exact Or.inl h
        · exact Or.inl (h ▸ hk)
        · exact Or.inr h
    · rw [if_neg hc]
      simp only [List.mem_append, List.mem_cons, List.not_mem_nil, or_false]
      constructor
      · rintro ((h | h) | h)
        · exact Or.inl h
        · exact Or.inr (Or.inl h)
        · exact Or.inr (Or.inr h)
      · rintro (h | h | h)
        · exact Or.inl (Or.inl h)
        · exact Or.inl (Or.inr h)
        · exact Or.inr h

/-- Length after folding insertKey over fresh distinct keys. -/
theorem length_foldl_insertKey (ks : List (Nat × Nat)) (acc : List (Nat × Nat))
    (hnd : ks.Nodup) (hdisj : ∀ k ∈ ks, k ∉ acc) :
    (ks.foldl insertKey acc).length = acc.length + ks.length := by
  induction ks generalizing acc with
  | nil => simp
  | cons k ks ih =>
    have hk : ¬(acc.contains k = true) := by
      intro hc
      exact hdisj k (List.mem_cons_self k ks) (List.elem_iff.mp hc)
    have hdisj2 : ∀ k2 ∈ ks, k2 ∉ acc ++ [k] := by
      intro k2 hk2
      simp only [List.mem_append, List.mem_cons, List.not_mem_nil, or_false]
      rintro (h | h)
      · exact hdisj k2 (List.mem_cons_of_mem k hk2) h
      · rw [h] at hk2
        exact (List.nodup_cons.mp hnd).1 hk2
    have hins : insertKey acc k = acc ++ [k] := by
      unfold insertKey
      rw [if_neg hk]
    rw [List.foldl_cons, hins, ih (acc ++ [k]) (List.Nodup.of_cons hnd) hdisj2]
    simp only [List.length_append, List.length_singleton, List.length_cons, List.length_nil]
    omega

/-- No duplicate designated bombs. -/
theorem bombIdx_nodup (c : Config) (s : GameState) (excl : Option Nat) :
    (bombIdx c s excl).Nodup :=
  List.Nodup.sublist (List.take_sublist _ _)
    ((fisherYates_perm (c.rand s.randUses) (availableIdx s excl)).symm.nodup
      (availableIdx_nodup s excl))

/-- On the win path every designated bomb is an unrevealed tile index. -/
theorem bombIdx_sub_unrev (c : Config) (s : GameState)
    {b : Nat} (hb : b ∈ bombIdx c s none) : b ∈ unrevealedIdx s :=
  bombIdx_mem c s none hb

/-- Number of designated bomb keys starting from an empty bombPositions set,
given distinct tile keys. -/
theorem newBombKeys_length_of_empty (c : Config) (s : GameState)
    (hb0 : s.bombPositions = [])
    (hinj : ∀ i1 ∈ List.range s.tiles.length, ∀ i2 ∈ List.range s.tiles.length,
        keyAt s i1 = keyAt s i2 → i1 = i2) :
    (newBombKeys c s none).length = (bombIdx c s none).length := by
  rw [newBombKeys_eq_foldl_map, hb0]
  have hmapnd : ((bombIdx c s none).map (keyAt s)).Nodup := by
    refine List.Nodup.map_on ?_ (bombIdx_nodup c s none)
    intro x hx y hy hxy
    have hx2 : x ∈ List.range s.tiles.length :=
      List.mem_range.mpr (unrevealedIdx_lt s (bombIdx_sub_unrev c s hx))
    have hy2 : y ∈ List.range s.tiles.length :=
      List.mem_range.mpr (unrevealedIdx_lt s (bombIdx_sub_unrev c s hy))
    exact hinj x hx2 y hy2 hxy
  rw [length_foldl_insertKey _ _ hmapnd (by intro k hk; simp)]
  simp

/-- Deciding a cascade face against the updated key set is deciding bomb
membership, for tiles with distinct keys. -/
theorem newBombKeys_contains_iff (c : Config) (s : GameState)
    (hb0 : s.bombPositions = [])
    (hinj : ∀ i1 ∈ List.range s.tiles.length, ∀ i2 ∈ List.range s.tiles.length,
        keyAt s i1 = keyAt s i2 → i1 = i2)
    {i : Nat} (hi : i < s.tiles.length) :
    ((newBombKeys c s none).contains (keyAt s i) = true) ↔ i ∈ bombIdx c s none := by
  rw [newBombKeys_eq_foldl_map, hb0]
  rw [List.elem_iff, mem_foldl_insertKey]
  simp only [List.not_mem_nil, false_or, List.mem_map]
  constructor
  · rintro ⟨j, hj, hkey⟩
    have hj2 : j ∈ List.range s.tiles.length :=
      List.mem_range.mpr (unrevealedIdx_lt s (bombIdx_sub_unrev c s hj))
    have := hinj j hj2 i (List.mem_range.mpr hi) hkey
    exact this ▸ hj
  · intro hmem
    exact ⟨i, hmem, rfl⟩

/-- Counting bomb faces in the cascade counts unrevealed tiles whose key is
a designated bomb key. -/
theorem cascadeSched_bombCount (c : Config) (s : GameState) (excl : Option Nat) :
    (cascadeSched c s excl).countP isBombCascade =
      (unrevealedIdx s).countP (fun i => (newBombKeys c s excl).contains (keyAt s i)) := by
  unfold cascadeSched
  rw [List.countP_map]
  have h1 : ∀ p : Nat × Nat,
      (isBombCascade ∘ fun p : Nat × Nat =>
        ({ kind := EvKind.cascadeCall p.2
              (if (newBombKeys c s excl).contains (keyAt s p.2) then Face.bomb else Face.diamond),
           time := s.now + c.revealAllIntervalDelay * (p.1 : ℚ) } : Ev)) p =
      (newBombKeys c s excl).contains (keyAt s p.2) := by
    intro p
    by_cases hm : keyAt s p.2 ∈ newBombKeys c s excl
    · simp [isBombCascade, hm]
    · simp [isBombCascade, hm]
  rw [List.countP_congr (fun pr _ => by rw [h1 pr])]
  conv_rhs => rw [← List.enum_map_snd (unrevealedIdx s), List.countP_map]
  rfl

/-- Counting members of a duplicate-free sublist inside a duplicate-free
list gives the sublist's length. -/
theorem countP_mem_eq_length (l sub : List Nat) (hl : l.Nodup) (hs : sub.Nodup)
    (hsub : ∀ x ∈ sub, x ∈ l) :
    l.countP (fun i => sub.contains i) = sub.length := by
  rw [List.countP_eq_length_filter]
  have hperm : List.Perm (l.filter (fun i => sub.contains i)) sub := by
    refine (List.perm_ext_iff_of_nodup (List.Nodup.filter _ hl) hs).mpr ?_
    intro a
    rw [List.mem_filter]
    constructor
    · rintro ⟨_, hc⟩
      exact List.elem_iff.mp hc
    · intro ha
      exact ⟨hsub a ha, List.elem_iff.mpr ha⟩
  exact hperm.length_eq


/-- Tile state written by the flip completion before the win test. -/
def postReveal (s : GameState) (i : Nat) (tl : MTile) : GameState :=
  setTile s i { tl with wiggleEpoch := tl.wiggleEpoch + 1, animating := false, revealed := true }

/-- Keys are untouched by the flip completion tile write. -/
theorem keyAt_postReveal (s : GameState) (i : Nat) (tl : MTile)
    (ht : s.tiles[i]? = some tl) (j : Nat) :
    keyAt (postReveal s i tl) j = keyAt s j := by
  have hi : i < s.tiles.length := (List.getElem?_eq_some_iff.mp ht).1
  unfold keyAt postReveal setTile
  by_cases hij : i = j
  · subst hij
    rw [List.getElem?_set_self hi, ht]
  · rw [List.getElem?_set_ne hij]

/-- On the win path the bomb faces of the scheduled cascade count exactly
the designated bombs. -/
theorem cascade_bomb_faces_count (c : Config) (s2 : GameState)
    (hb0 : s2.bombPositions = [])
    (hinj : ∀ i1 ∈ List.range s2.tiles.length, ∀ i2 ∈ List.range s2.tiles.length,
        keyAt s2 i1 = keyAt s2 i2 → i1 = i2)
    (henough : s2.mines - 1 ≤ (unrevealedIdx s2).length) :
    (cascadeSched c s2 none).countP isBombCascade = s2.mines - 1 := by
  rw [cascadeSched_bombCount]
  have hav : availableIdx s2 none = unrevealedIdx s2 := rfl
  have hcong : (unrevealedIdx s2).countP
        (fun i => (newBombKeys c s2 none).contains (keyAt s2 i)) =
      (unrevealedIdx s2).countP (fun i => (bombIdx c s2 none).contains i) := by
    refine List.countP_congr ?_
    intro x hx
    have hxlt : x < s2.tiles.length := unrevealedIdx_lt s2 hx
    rw [newBombKeys_contains_iff c s2 hb0 hinj hxlt, List.elem_iff]
  rw [hcong,
    countP_mem_eq_length (unrevealedIdx s2) (bombIdx c s2 none) (unrevealedIdx_nodup s2)
      (bombIdx_nodup c s2 none) (fun x hx => bombIdx_sub_unrev c s2 hx)]
  apply bombIdx_length
  rw [hav]
  exact henough

/-- State against which the win branch invokes revealAllTiles(): the tile is
written, revealedSafe incremented and gameOver set. -/
def winState (s : GameState) (i : Nat) (tl : MTile) : GameState :=
  { postReveal s i tl with revealedSafe := s.revealedSafe + 1, gameOver := true }

/-- Computation of the flip completion on the win path: the tile write, the
revealedSafe increment, gameOver, the cascade call with no excluded tile and
the win callback. -/
theorem fireFlipComplete_win_eq (c : Config) (s : GameState) (i : Nat) (tl : MTile)
    (ht : s.tiles[i]? = some tl)
    (hwin : s.totalSafe ≤ ((s.revealedSafe + 1 : Nat) : Int)) :
    fireFlipComplete c i Face.diamond true s =
      { revealAllTiles c none (winState s i tl) with winFires := s.winFires + 1 } := by
  simp only [fireFlipComplete, ht]
  have hc : (setTile s i
        { tl with wiggleEpoch := tl.wiggleEpoch + 1, animating := false,
                  revealed := true }).totalSafe ≤
      (((setTile s i
        { tl with wiggleEpoch := tl.wiggleEpoch + 1, animating := false,
                  revealed := true }).revealedSafe + 1 : Nat) : Int) := hwin
  rw [if_pos hc]
  rfl


/-- Claim C9: when a win occurs (revealedSafe reaches totalSafe at a player
diamond flip completion), the cosmetic reveal-all cascade is invoked with no
excluded triggering tile yet still designates exactly mines − 1 of the
remaining unrevealed tiles as bombs; the scheduled cascade therefore shows
mines − 1 bomb faces in total — strictly fewer than mines. Hypotheses:
bombPositions is still empty (first game-over of the round), tile keys are
distinct, and at least mines − 1 tiles are still unrevealed after the
winning tile flips. -/
theorem C9_win_cascade_designates_minesMinusOne (c : Config) (s : GameState)
    (i : Nat) (tl : MTile)
    (ht : s.tiles[i]? = some tl)
    (hwin : s.totalSafe ≤ ((s.revealedSafe + 1 : Nat) : Int))
    (hb0 : s.bombPositions = [])
    (hm : 1 ≤ s.mines)
    (hinj : ∀ i1 ∈ List.range s.tiles.length, ∀ i2 ∈ List.range s.tiles.length,
        keyAt s i1 = keyAt s i2 → i1 = i2)
    (henough : s.mines - 1 ≤ (unrevealedIdx (postReveal s i tl)).length) :
    (fireFlipComplete c i Face.diamond true s).gameOver = true
    ∧ (fireFlipComplete c i Face.diamond true s).winFires = s.winFires + 1
    ∧ (fireFlipComplete c i Face.diamond true s).bombPositions.length = s.mines - 1
    ∧ ((fireFlipComplete c i Face.diamond true s).pending.drop s.pending.length).countP
        isBombCascade = s.mines - 1
    ∧ s.mines - 1 < s.mines := by
  have heq := fireFlipComplete_win_eq c s i tl ht hwin
  have hlenW : (winState s i tl).tiles.length = s.tiles.length := by
    show (s.tiles.set i _).length = s.tiles.length
    exact List.length_set s.tiles i _
  have hinjW : ∀ i1 ∈ List.range (winState s i tl).tiles.length,
      ∀ i2 ∈ List.range (winState s i tl).tiles.length,
      keyAt (winState s i tl) i1 = keyAt (winState s i tl) i2 → i1 = i2 := by
    intro i1 h1 i2 h2 hk
    rw [hlenW] at h1 h2
    have hk2 : keyAt s i1 = keyAt s i2 := by
      rw [← keyAt_postReveal s i tl ht i1, ← keyAt_postReveal s i tl ht i2]
      exact hk
    exact hinj i1 h1 i2 h2 hk2
  have hb0W : (winState s i tl).bombPositions = [] := hb0
  have henoughW : (winState s i tl).mines - 1 ≤ (unrevealedIdx (winState s i tl)).length :=
    henough
  rw [heq]
  refine ⟨rfl, rfl, ?_, ?_, by omega⟩
  · show (newBombKeys c (winState s i tl) none).length = s.mines - 1
    rw [newBombKeys_length_of_empty c (winState s i tl) hb0W hinjW]
    exact bombIdx_length c (winState s i tl) none henoughW
  · have hpend : ({ revealAllTiles c none (winState s i tl) with
        winFires := s.winFires + 1 }).pending =
        s.pending ++ cascadeSched c (winState s i tl) none := rfl
    rw [hpend, List.drop_left]
    exact cascade_bomb_faces_count c (winState s i tl) hb0W hinjW henoughW


/-- Pre-win state for the C9 witness: one safe reveal done, one to go. -/
def c9s : GameState := { mkInitial cfg2 2 with revealedSafe := 1 }

/-- Witness for C9 at the concrete pre-win state. -/
theorem C9_win_cascade_designates_minesMinusOne_witness :
    (c9s.tiles[0]? = some (freshTile 0 0)
      ∧ c9s.totalSafe ≤ ((c9s.revealedSafe + 1 : Nat) : Int)
      ∧ c9s.bombPositions = []
      ∧ 1 ≤ c9s.mines
      ∧ c9s.mines - 1 ≤ (unrevealedIdx (postReveal c9s 0 (freshTile 0 0))).length)
    ∧ (fireFlipComplete cfg2 0 Face.diamond true c9s).bombPositions.length = c9s.mines - 1
    ∧ (fireFlipComplete cfg2 0 Face.diamond true c9s).winFires = c9s.winFires + 1
    ∧ c9s.mines - 1 < c9s.mines :=
  ⟨⟨by decide, by decide, by decide, by decide, by decide⟩,
   (C9_win_cascade_designates_minesMinusOne cfg2 c9s 0 (freshTile 0 0) (by decide) (by decide)
      (by decide) (by decide) (by decide) (by decide)).2.2.1,
   (C9_win_cascade_designates_minesMinusOne cfg2 c9s 0 (freshTile 0 0) (by decide) (by decide)
      (by decide) (by decide) (by decide) (by decide)).2.1,
   (C9_win_cascade_designates_minesMinusOne cfg2 c9s 0 (freshTile 0 0) (by decide) (by decide)
      (by decide) (by decide) (by decide) (by decide)).2.2.2.2⟩

end Mines
